import Mathlib

/-!
Verification development for the DDIM / PLMS samplers of the imaginAIry
repository (`imaginairy/samplers/ddim.py`, `imaginairy/samplers/plms.py`).

Shallow embedding conventions:

* Tensors are modelled elementwise as functions `ι → ℚ` for an arbitrary index
  type `ι`; every tensor operation in the samplers is elementwise arithmetic or
  a scalar broadcast, so each element evolves independently.  Machine floats
  are idealised as exact rationals; the one place where IEEE behaviour matters
  to a claim (square root of a negative radicand, which torch maps to NaN) is
  modelled separately and faithfully by the `TF` type below.
* The square-root primitive of the tensor engine is an external collaborator
  (spec section 1, OUT OF SCOPE list), so the embedding is parametrised by a
  function `rsqrt : ℚ → ℚ` standing for the nonnegative square root.
* Random draws (`torch.randn`, `noise_like`) are modelled by a caller-supplied
  stream `rng : ℕ → ι → ℚ` together with an explicit counter threaded through
  the loops; each draw site consumes one stream position.
* `torch.nn.functional.dropout` and `first_stage_model.quantize` are opaque
  external primitives, modelled by parameter functions `dropFn`, `quantizeFn`.
* `get_noise_prediction` (the guided noise predictor, with its conditioning
  tensors and guidance scale folded in) is the external collaborator
  `npred : (ι → ℚ) → ℕ → ι → ℚ`, mapping (latent, timestep) to a prediction.
  Conditioning tensors themselves only matter to the samplers through their
  batch dimension, which is modelled as a bare natural number `condBatch`.
* `mask is not None` comes with the assertion `orig_latent is not None` in the
  source; the pair is therefore modelled as one optional argument
  `mo : Option ((ι → ℚ) × (ι → ℚ))` carrying (mask, orig_latent).
* Python lists indexed from the end (`old_eps[-1]`) are modelled by `histGet`.
-/

namespace Imaginairy

/-- Elementwise model of a torch tensor: a map from coordinates to exact
rational values. -/
def Tensor (ι : Type) : Type := ι → ℚ

/-- The all-zeros tensor (used as an out-of-range default for list lookups that
the source never actually performs out of range). -/
def zeroT {ι : Type} : Tensor ι := fun _ => 0

/-- External collaborators of the sampler core, bundled: the square-root
primitive, the guided noise predictor, the Gaussian draw stream, dropout and
the latent quantizer. -/
structure Ctx (ι : Type) where
  rsqrt : ℚ → ℚ
  npred : Tensor ι → ℕ → Tensor ι
  rng : ℕ → Tensor ι
  dropFn : Tensor ι → Tensor ι
  quantizeFn : Tensor ι → Tensor ι

/-- Python negative indexing `old_eps[-j]` for a list `h` (j = 1 is the most recent entry). -/
def histGet {ι : Type} (h : List (Tensor ι)) (j : ℕ) : Tensor ι :=
  h.getD (h.length - j) zeroT

/-- Modelled from the spec: `make_ddim_timesteps` (uniform mode) from
`imaginairy/modules/diffusion/util.py`, which is not part of the provided
sources.  Spec section 4.1: choose `ddim_num_steps` evenly spaced indices with
stride `model_num_timesteps / ddim_num_steps`, then apply the +1 offset of the
reference convention. -/
def make_ddim_timesteps (ddimNumSteps numDdpmTimesteps : ℕ) : List ℕ :=
  let c := numDdpmTimesteps / ddimNumSteps
  (List.range ddimNumSteps).map (fun i => c * i + 1)

/-- Modelled from the spec: the per-index sigma of
`make_ddim_sampling_parameters` (section 4.1):
`sigma[i] = eta * sqrt((1-alphas_prev[i])/(1-alphas[i]) * (1-alphas[i]/alphas_prev[i]))`. -/
def ddim_sigma (rsqrt : ℚ → ℚ) (eta a aPrev : ℚ) : ℚ :=
  eta * rsqrt ((1 - aPrev) / (1 - a) * (1 - a / aPrev))

/-- Modelled from the spec: `make_ddim_sampling_parameters` from
`imaginairy/modules/diffusion/util.py` (not in the provided sources).  Spec
section 4.1: `alphas[i] = model_alphas_cumprod[t_i]`,
`alphas_prev[i] = model_alphas_cumprod[t_(i-1)]` for `i > 0` and
`model_alphas_cumprod[0]` for `i = 0`, and the sigma formula above.  Returns
(sigmas, alphas, alphas_prev). -/
def make_ddim_sampling_parameters (rsqrt : ℚ → ℚ) (alphacums : List ℚ)
    (timesteps : List ℕ) (eta : ℚ) : List ℚ × List ℚ × List ℚ :=
  let alphas := timesteps.map (fun t => alphacums.getD t 0)
  let alphasPrev :=
    alphacums.getD 0 0 :: timesteps.dropLast.map (fun t => alphacums.getD t 0)
  let sigmas := List.zipWith (fun a aPrev => ddim_sigma rsqrt eta a aPrev) alphas alphasPrev
  (sigmas, alphas, alphasPrev)

/-- The derived step schedule held by `DDIMSchedule` / `PLMSSchedule`
(`ddim.py` lines 25-64, `plms.py` lines 25-61): the cumulative-alpha
table, the whole-range square-root tables, and the subsampled DDIM arrays. -/
structure Schedule where
  alphas_cumprod : List ℚ
  sqrt_alphas_cumprod : List ℚ
  sqrt_one_minus_alphas_cumprod : List ℚ
  ddim_timesteps : List ℕ
  ddim_sigmas : List ℚ
  ddim_alphas : List ℚ
  ddim_alphas_prev : List ℚ
  ddim_sqrt_one_minus_alphas : List ℚ

/-- Embedding of `DDIMSchedule.__init__` (`ddim.py` lines 25-64).  The schedule-length
check (`ValueError`) is not modelled: no claim concerns it and the lookups are
total in the list model.  `modelNumTimesteps` is kept as a parameter for
fidelity with the constructor signature. -/
def Schedule.buildDDIM (rsqrt : ℚ → ℚ) (modelNumTimesteps : ℕ)
    (modelAlphasCumprod : List ℚ) (ddimNumSteps : ℕ) (ddimEta : ℚ) : Schedule :=
  let ts := make_ddim_timesteps ddimNumSteps modelNumTimesteps
  let p := make_ddim_sampling_parameters rsqrt modelAlphasCumprod ts ddimEta
  { alphas_cumprod := modelAlphasCumprod
    sqrt_alphas_cumprod := modelAlphasCumprod.map rsqrt
    sqrt_one_minus_alphas_cumprod := modelAlphasCumprod.map (fun a => rsqrt (1 - a))
    ddim_timesteps := ts
    ddim_sigmas := p.1
    ddim_alphas := p.2.1
    ddim_alphas_prev := p.2.2
    ddim_sqrt_one_minus_alphas := p.2.1.map (fun a => rsqrt (1 - a)) }

/-- Embedding of `PLMSSchedule.__init__` (`plms.py` lines 25-61): identical derivation with
the stochasticity knob hardwired to `eta = 0.0` (`plms.py` line 54). -/
def Schedule.buildPLMS (rsqrt : ℚ → ℚ) (modelNumTimesteps : ℕ)
    (modelAlphasCumprod : List ℚ) (ddimNumSteps : ℕ) : Schedule :=
  Schedule.buildDDIM rsqrt modelNumTimesteps modelAlphasCumprod ddimNumSteps 0

/-- Modelled from the spec: the `q_sample` collaborator of the model (ForwardNoise,
spec sections 4.1 and 6; the implementation lives outside the provided
sources): `x_t = sqrt_alphas_cumprod[t]*x_0 + sqrt_one_minus_alphas_cumprod[t]*noise`
over the whole-range table of the model.  The noise tensor is passed explicitly by
the caller; call sites where the source lets `q_sample` draw internally pass a
fresh stream position. -/
def q_sample {ι : Type} (rsqrt : ℚ → ℚ) (modelAlphasCumprod : List ℚ)
    (x0 : Tensor ι) (t : ℕ) (noise : Tensor ι) : Tensor ι :=
  fun j =>
    rsqrt (modelAlphasCumprod.getD t 0) * x0 j +
      rsqrt (1 - modelAlphasCumprod.getD t 0) * noise j

/-- Result of one closed-form solver step: the next latent, the denoised
estimate, and the advanced draw counter. -/
structure StepOut (ι : Type) where
  xPrev : Tensor ι
  predX0 : Tensor ι
  k : ℕ

/-- Embedding of `DDIMSampler._p_sample_ddim_formula` (`ddim.py` lines 205-228) over the
idealised rational scalars; `z` is the `noise_like` draw supplied by the
caller.  `repeat_noise` is `False` at every call site in the sources and is
not modelled (it only changes how the draw is broadcast across the batch). -/
def p_sample_ddim_formula {ι : Type} (rsqrt : ℚ → ℚ) (dropFn : Tensor ι → Tensor ι)
    (noisyLatent noisePred : Tensor ι) (sqrtOneMinusAt aT sigmaT aPrev : ℚ)
    (noiseDropout temperature : ℚ) (z : Tensor ι) : Tensor ι × Tensor ι :=
  let predictedLatent : Tensor ι :=
    fun j => (noisyLatent j - sqrtOneMinusAt * noisePred j) / rsqrt aT
  let dirXt : Tensor ι := fun j => rsqrt (1 - aPrev - sigmaT ^ 2) * noisePred j
  let noise : Tensor ι := fun j => sigmaT * z j * temperature
  let noise := if noiseDropout > 0 then dropFn noise else noise
  (fun j => rsqrt aPrev * predictedLatent j + dirXt j + noise j, predictedLatent)

/-- Embedding of `DDIMSampler.p_sample_ddim` (`ddim.py` lines 144-203): evaluate the noise
predictor, select the schedule coefficients at `index`, and apply the step
formula (consuming one `noise_like` draw).  The `guidance_scale >= 1`
assertion lives inside the folded-away predictor collaborator; the
`quantize_denoised` parameter is accepted but never used by the DDIM
variant. -/
def p_sample_ddim {ι : Type} (C : Ctx ι) (sched : Schedule) (noisyLatent : Tensor ι)
    (ts index : ℕ) (temperature noiseDropout : ℚ) (k : ℕ) : StepOut ι :=
  let noisePred := C.npred noisyLatent ts
  let aT := sched.ddim_alphas.getD index 0
  let aPrev := sched.ddim_alphas_prev.getD index 0
  let sigmaT := sched.ddim_sigmas.getD index 0
  let sqrtOneMinusAt := sched.ddim_sqrt_one_minus_alphas.getD index 0
  let r := p_sample_ddim_formula C.rsqrt C.dropFn noisyLatent noisePred
    sqrtOneMinusAt aT sigmaT aPrev noiseDropout temperature (C.rng k)
  ⟨r.1, r.2, k + 1⟩

/-- Outcome of the per-iteration mask compositing: the (possibly) composited
latent, the advanced draw counter, the known-region tensor actually blended in
(`none` when no mask is supplied), and the noise tensor handed to `q_sample`
(`none` when no mask is supplied). -/
structure CompOut (ι : Type) where
  x : Tensor ι
  k : ℕ
  known : Option (Tensor ι)
  qNoise : Option (Tensor ι)

/-- The mask compositing of `sample` (`ddim.py` lines 121-124 and, textually
identical, `plms.py` lines 130-133): `img_orig = model.q_sample(orig_latent, ts)`
(which draws fresh noise internally) followed by
`noisy_latent = img_orig * mask + (1 - mask) * noisy_latent`. -/
def sampleMaskComposite {ι : Type} (C : Ctx ι) (acp : List ℚ)
    (mo : Option (Tensor ι × Tensor ι)) (x : Tensor ι) (ts k : ℕ) : CompOut ι :=
  match mo with
  | some mo =>
      let z := C.rng k
      let imgOrig := q_sample C.rsqrt acp mo.2 ts z
      ⟨fun j => imgOrig j * mo.1 j + (1 - mo.1 j) * x j, k + 1, some imgOrig, some z⟩
  | none => ⟨x, k, none, none⟩

/-- The `hint_strength = 0.8` constant of the two `decode` methods. -/
def hintStrength : ℚ := 4 / 5

/-- The mask compositing of `DDIMSampler.decode` (`ddim.py` lines 275-288):
as in `sample` but with the raw `orig_latent` hint blend applied on the first
two iterations (`i < 2`). -/
def ddimDecodeMaskComposite {ι : Type} (C : Ctx ι) (acp : List ℚ)
    (mo : Option (Tensor ι × Tensor ι)) (x : Tensor ι) (ts i k : ℕ) : CompOut ι :=
  match mo with
  | some mo =>
      let z := C.rng k
      let xdecOrig := q_sample C.rsqrt acp mo.2 ts z
      let hinted :=
        if i < 2 then
          fun j => xdecOrig j * (1 - hintStrength) + mo.2 j * hintStrength
        else xdecOrig
      ⟨fun j => hinted j * mo.1 j + (1 - mo.1 j) * x j, k + 1, some hinted, some z⟩
  | none => ⟨x, k, none, none⟩

/-- The mask compositing of `PLMSSampler.decode` (`plms.py` lines 313-326):
as the DDIM decode compositing, except that `q_sample` is given the single
noise tensor `n` fixed before the loop instead of drawing internally. -/
def plmsDecodeMaskComposite {ι : Type} (C : Ctx ι) (acp : List ℚ)
    (mo : Option (Tensor ι × Tensor ι)) (x : Tensor ι) (ts i : ℕ) (n : Tensor ι)
    (k : ℕ) : CompOut ι :=
  match mo with
  | some mo =>
      let xdecOrig := q_sample C.rsqrt acp mo.2 ts n
      let hinted :=
        if i < 2 then
          fun j => xdecOrig j * (1 - hintStrength) + mo.2 j * hintStrength
        else xdecOrig
      ⟨fun j => hinted j * mo.1 j + (1 - mo.1 j) * x j, k, some hinted, some n⟩
  | none => ⟨x, k, none, none⟩

/-- State threaded through a sampler loop, together with instrumentation
traces (one entry per completed iteration) used to state per-iteration
properties: `xs` the latent after each iteration, `comps` the latent fed to
the solver step, `knowns` / `qNoises` the blended known region and the
`q_sample` noise of the mask compositing, `rawPreds` the raw noise prediction
appended to `old_eps` (PLMS only). -/
structure LoopState (ι : Type) where
  x : Tensor ι
  k : ℕ
  oldEps : List (Tensor ι)
  xs : List (Tensor ι)
  comps : List (Tensor ι)
  knowns : List (Option (Tensor ι))
  qNoises : List (Option (Tensor ι))
  rawPreds : List (Tensor ι)

/-- The loop state at loop entry. -/
def LoopState.init {ι : Type} (x0 : Tensor ι) (k0 : ℕ) : LoopState ι :=
  ⟨x0, k0, [], [], [], [], [], []⟩

/-- One iteration of the `DDIMSampler.sample` loop (`ddim.py` lines 117-140):
`step = time_range[i]`, `index = total_steps - i - 1`, mask compositing, then
`p_sample_ddim`. -/
def ddimSampleIter {ι : Type} (C : Ctx ι) (acp : List ℚ) (sched : Schedule)
    (mo : Option (Tensor ι × Tensor ι)) (temperature noiseDropout : ℚ)
    (s : LoopState ι) (i : ℕ) : LoopState ι :=
  let total := sched.ddim_timesteps.length
  let step := sched.ddim_timesteps.reverse.getD i 0
  let index := total - 1 - i
  let m := sampleMaskComposite C acp mo s.x step s.k
  let r := p_sample_ddim C sched m.x step index temperature noiseDropout m.k
  { x := r.xPrev, k := r.k, oldEps := s.oldEps,
    xs := s.xs ++ [r.xPrev], comps := s.comps ++ [m.x],
    knowns := s.knowns ++ [m.known], qNoises := s.qNoises ++ [m.qNoise],
    rawPreds := s.rawPreds }

/-- The `DDIMSampler.sample` loop state after `n` iterations. -/
def ddimSampleAux {ι : Type} (C : Ctx ι) (acp : List ℚ) (sched : Schedule)
    (mo : Option (Tensor ι × Tensor ι)) (temperature noiseDropout : ℚ)
    (x0 : Tensor ι) (k0 : ℕ) : ℕ → LoopState ι
  | 0 => LoopState.init x0 k0
  | n + 1 =>
      ddimSampleIter C acp sched mo temperature noiseDropout
        (ddimSampleAux C acp sched mo temperature noiseDropout x0 k0 n) n

/-- Embedding of `DDIMSampler.sample` (`ddim.py` lines 78-142): the batch-shape check, the
schedule build (always with `ddim_eta = 0`), the initial-latent draw when the
caller supplies none, and the full loop; returns the final latent. -/
def DDIMSampler.sample {ι : Type} (C : Ctx ι) (modelNumTimesteps : ℕ)
    (acp : List ℚ) (numSteps condBatch batchSize : ℕ)
    (mo : Option (Tensor ι × Tensor ι)) (temperature noiseDropout : ℚ)
    (initialLatent : Option (Tensor ι)) : Except String (Tensor ι) :=
  if condBatch ≠ batchSize then
    Except.error "conditionings do not match batch size"
  else
    let sched := Schedule.buildDDIM C.rsqrt modelNumTimesteps acp numSteps 0
    let x0k : Tensor ι × ℕ :=
      match initialLatent with
      | some x => (x, 0)
      | none => (C.rng 0, 1)
    Except.ok
      (ddimSampleAux C acp sched mo temperature noiseDropout x0k.1 x0k.2
        sched.ddim_timesteps.length).x

/-- One iteration of the `DDIMSampler.decode` loop (`ddim.py` lines 266-302):
the walked timesteps are `ddim_timesteps[:t_start]`, the mask compositing uses
the hint blend, and `p_sample_ddim` is called without `noise_dropout`
(defaulting to 0). -/
def ddimDecodeIter {ι : Type} (C : Ctx ι) (acp : List ℚ) (sched : Schedule)
    (tStart : ℕ) (mo : Option (Tensor ι × Tensor ι)) (temperature : ℚ)
    (s : LoopState ι) (i : ℕ) : LoopState ι :=
  let timesteps := sched.ddim_timesteps.take tStart
  let total := timesteps.length
  let step := timesteps.reverse.getD i 0
  let index := total - 1 - i
  let m := ddimDecodeMaskComposite C acp mo s.x step i s.k
  let r := p_sample_ddim C sched m.x step index temperature 0 m.k
  { x := r.xPrev, k := r.k, oldEps := s.oldEps,
    xs := s.xs ++ [r.xPrev], comps := s.comps ++ [m.x],
    knowns := s.knowns ++ [m.known], qNoises := s.qNoises ++ [m.qNoise],
    rawPreds := s.rawPreds }

/-- The `DDIMSampler.decode` loop state after `n` iterations. -/
def ddimDecodeAux {ι : Type} (C : Ctx ι) (acp : List ℚ) (sched : Schedule)
    (tStart : ℕ) (mo : Option (Tensor ι × Tensor ι)) (temperature : ℚ)
    (x0 : Tensor ι) (k0 : ℕ) : ℕ → LoopState ι
  | 0 => LoopState.init x0 k0
  | n + 1 =>
      ddimDecodeIter C acp sched tStart mo temperature
        (ddimDecodeAux C acp sched tStart mo temperature x0 k0 n) n

/-- Embedding of `DDIMSampler.decode` (`ddim.py` lines 245-303): run the truncated loop
from the supplied initial latent and return the full final loop state (the
source returns its `.x`). -/
def DDIMSampler.decode {ι : Type} (C : Ctx ι) (acp : List ℚ) (sched : Schedule)
    (tStart : ℕ) (mo : Option (Tensor ι × Tensor ι)) (temperature : ℚ)
    (initialLatent : Tensor ι) : LoopState ι :=
  ddimDecodeAux C acp sched tStart mo temperature initialLatent 0
    (sched.ddim_timesteps.take tStart).length

/-- The inner `get_x_prev_and_pred_x0` closure of `PLMSSampler.p_sample_plms`
(`plms.py` lines 186-219): the shared step formula, with the optional latent
quantization applied to the denoised estimate before the direction term. -/
def get_x_prev_and_pred_x0 {ι : Type} (C : Ctx ι) (sched : Schedule)
    (noisyLatent : Tensor ι) (quantizeDenoised : Bool)
    (temperature noiseDropout : ℚ) (eT : Tensor ι) (index k : ℕ) : StepOut ι :=
  let aT := sched.ddim_alphas.getD index 0
  let aPrev := sched.ddim_alphas_prev.getD index 0
  let sigmaT := sched.ddim_sigmas.getD index 0
  let sqrtOneMinusAt := sched.ddim_sqrt_one_minus_alphas.getD index 0
  let predX0 : Tensor ι := fun j => (noisyLatent j - sqrtOneMinusAt * eT j) / C.rsqrt aT
  let predX0 := if quantizeDenoised then C.quantizeFn predX0 else predX0
  let dirXt : Tensor ι := fun j => C.rsqrt (1 - aPrev - sigmaT ^ 2) * eT j
  let noise : Tensor ι := fun j => sigmaT * C.rng k j * temperature
  let noise := if noiseDropout > 0 then C.dropFn noise else noise
  ⟨fun j => C.rsqrt aPrev * predX0 j + dirXt j + noise j, predX0, k + 1⟩

/-- Result of one PLMS solver step: next latent, denoised estimate, the raw
(uncorrected) noise prediction returned to the caller, and the draw counter. -/
structure PlmsStepOut (ι : Type) where
  xPrev : Tensor ι
  predX0 : Tensor ι
  ePred : Tensor ι
  k : ℕ

/-- Embedding of `PLMSSampler.p_sample_plms` (`plms.py` lines 158-249): evaluate the raw
noise prediction, derive the corrected prediction by the order selected from
`len(old_eps)` (with the Pseudo Improved Euler trial step plus lookahead
re-evaluation when the history is empty), and apply the step formula to the
corrected prediction.  Returns the raw prediction as the third component. -/
def p_sample_plms {ι : Type} (C : Ctx ι) (sched : Schedule) (noisyLatent : Tensor ι)
    (ts index : ℕ) (quantizeDenoised : Bool) (temperature noiseDropout : ℚ)
    (oldEps : List (Tensor ι)) (tNext k : ℕ) : PlmsStepOut ι :=
  let noisePred := C.npred noisyLatent ts
  if oldEps.length = 0 then
    let t1 := get_x_prev_and_pred_x0 C sched noisyLatent quantizeDenoised
      temperature noiseDropout noisePred index k
    let eTNext := C.npred t1.xPrev tNext
    let eTPrime : Tensor ι := fun j => (noisePred j + eTNext j) / 2
    let r := get_x_prev_and_pred_x0 C sched noisyLatent quantizeDenoised
      temperature noiseDropout eTPrime index t1.k
    ⟨r.xPrev, r.predX0, noisePred, r.k⟩
  else if oldEps.length = 1 then
    let eTPrime : Tensor ι := fun j => (3 * noisePred j - histGet oldEps 1 j) / 2
    let r := get_x_prev_and_pred_x0 C sched noisyLatent quantizeDenoised
      temperature noiseDropout eTPrime index k
    ⟨r.xPrev, r.predX0, noisePred, r.k⟩
  else if oldEps.length = 2 then
    let eTPrime : Tensor ι := fun j =>
      (23 * noisePred j - 16 * histGet oldEps 1 j + 5 * histGet oldEps 2 j) / 12
    let r := get_x_prev_and_pred_x0 C sched noisyLatent quantizeDenoised
      temperature noiseDropout eTPrime index k
    ⟨r.xPrev, r.predX0, noisePred, r.k⟩
  else
    let eTPrime : Tensor ι := fun j =>
      (55 * noisePred j - 59 * histGet oldEps 1 j + 37 * histGet oldEps 2 j -
        9 * histGet oldEps 3 j) / 24
    let r := get_x_prev_and_pred_x0 C sched noisyLatent quantizeDenoised
      temperature noiseDropout eTPrime index k
    ⟨r.xPrev, r.predX0, noisePred, r.k⟩

/-- The history update after each PLMS iteration (`plms.py` lines 149-151 and
341-343): `old_eps.append(noise_pred)` then `old_eps.pop(0)` once the length
reaches 4. -/
def pushEps {ι : Type} (h : List (Tensor ι)) (e : Tensor ι) : List (Tensor ι) :=
  let h2 := h ++ [e]
  if 4 ≤ h2.length then h2.tail else h2

/-- One iteration of the `PLMSSampler.sample` loop (`plms.py` lines 120-154):
`ts_next = time_range[min(i + 1, len(time_range) - 1)]`, mask compositing
without hints, `p_sample_plms`, then the history push. -/
def plmsSampleIter {ι : Type} (C : Ctx ι) (acp : List ℚ) (sched : Schedule)
    (mo : Option (Tensor ι × Tensor ι)) (quantizeDenoised : Bool)
    (temperature noiseDropout : ℚ) (s : LoopState ι) (i : ℕ) : LoopState ι :=
  let total := sched.ddim_timesteps.length
  let tr := sched.ddim_timesteps.reverse
  let step := tr.getD i 0
  let tsNext := tr.getD (min (i + 1) (total - 1)) 0
  let index := total - 1 - i
  let m := sampleMaskComposite C acp mo s.x step s.k
  let r := p_sample_plms C sched m.x step index quantizeDenoised temperature
    noiseDropout s.oldEps tsNext m.k
  { x := r.xPrev, k := r.k, oldEps := pushEps s.oldEps r.ePred,
    xs := s.xs ++ [r.xPrev], comps := s.comps ++ [m.x],
    knowns := s.knowns ++ [m.known], qNoises := s.qNoises ++ [m.qNoise],
    rawPreds := s.rawPreds ++ [r.ePred] }

/-- The `PLMSSampler.sample` loop state after `n` iterations. -/
def plmsSampleAux {ι : Type} (C : Ctx ι) (acp : List ℚ) (sched : Schedule)
    (mo : Option (Tensor ι × Tensor ι)) (quantizeDenoised : Bool)
    (temperature noiseDropout : ℚ) (x0 : Tensor ι) (k0 : ℕ) : ℕ → LoopState ι
  | 0 => LoopState.init x0 k0
  | n + 1 =>
      plmsSampleIter C acp sched mo quantizeDenoised temperature noiseDropout
        (plmsSampleAux C acp sched mo quantizeDenoised temperature noiseDropout
          x0 k0 n) n

/-- Embedding of `PLMSSampler.sample` (`plms.py` lines 78-156): batch-shape check, schedule
build (eta hardwired to 0), initial-latent draw when none is supplied, and the
full loop; returns the final latent. -/
def PLMSSampler.sample {ι : Type} (C : Ctx ι) (modelNumTimesteps : ℕ)
    (acp : List ℚ) (numSteps condBatch batchSize : ℕ)
    (mo : Option (Tensor ι × Tensor ι)) (quantizeDenoised : Bool)
    (temperature noiseDropout : ℚ) (initialLatent : Option (Tensor ι)) :
    Except String (Tensor ι) :=
  if condBatch ≠ batchSize then
    Except.error "conditionings do not match batch size"
  else
    let sched := Schedule.buildPLMS C.rsqrt modelNumTimesteps acp numSteps
    let x0k : Tensor ι × ℕ :=
      match initialLatent with
      | some x => (x, 0)
      | none => (C.rng 0, 1)
    Except.ok
      (plmsSampleAux C acp sched mo quantizeDenoised temperature noiseDropout
        x0k.1 x0k.2 sched.ddim_timesteps.length).x

/-- One iteration of the `PLMSSampler.decode` loop (`plms.py` lines 298-346):
mask compositing with hints and the pre-drawn noise tensor `n`, then
`p_sample_plms` without `quantize_denoised` or `noise_dropout` (their
defaults), then the history push. -/
def plmsDecodeIter {ι : Type} (C : Ctx ι) (acp : List ℚ) (sched : Schedule)
    (tStart : ℕ) (mo : Option (Tensor ι × Tensor ι)) (temperature : ℚ)
    (n : Tensor ι) (s : LoopState ι) (i : ℕ) : LoopState ι :=
  let timesteps := sched.ddim_timesteps.take tStart
  let total := timesteps.length
  let tr := timesteps.reverse
  let step := tr.getD i 0
  let tsNext := tr.getD (min (i + 1) (total - 1)) 0
  let index := total - 1 - i
  let m := plmsDecodeMaskComposite C acp mo s.x step i n s.k
  let r := p_sample_plms C sched m.x step index false temperature 0 s.oldEps
    tsNext m.k
  { x := r.xPrev, k := r.k, oldEps := pushEps s.oldEps r.ePred,
    xs := s.xs ++ [r.xPrev], comps := s.comps ++ [m.x],
    knowns := s.knowns ++ [m.known], qNoises := s.qNoises ++ [m.qNoise],
    rawPreds := s.rawPreds ++ [r.ePred] }

/-- The `PLMSSampler.decode` loop state after `n` iterations, given the noise
tensor `n0` fixed before the loop. -/
def plmsDecodeAux {ι : Type} (C : Ctx ι) (acp : List ℚ) (sched : Schedule)
    (tStart : ℕ) (mo : Option (Tensor ι × Tensor ι)) (temperature : ℚ)
    (n0 : Tensor ι) (x0 : Tensor ι) (k0 : ℕ) : ℕ → LoopState ι
  | 0 => LoopState.init x0 k0
  | n + 1 =>
      plmsDecodeIter C acp sched tStart mo temperature n0
        (plmsDecodeAux C acp sched tStart mo temperature n0 x0 k0 n) n

/-- Embedding of `PLMSSampler.decode` (`plms.py` lines 268-347): one noise tensor is fixed
before the loop (drawn from the stream when the `noise` argument is `None`,
`plms.py` lines 293-297) and used by the mask compositing of every iteration;
returns the full final loop state (the source returns its `.x`). -/
def PLMSSampler.decode {ι : Type} (C : Ctx ι) (acp : List ℚ) (sched : Schedule)
    (tStart : ℕ) (mo : Option (Tensor ι × Tensor ι)) (temperature : ℚ)
    (noiseArg : Option (Tensor ι)) (initialLatent : Tensor ι) : LoopState ι :=
  let nk : Tensor ι × ℕ :=
    match noiseArg with
    | some n => (n, 0)
    | none => (C.rng 0, 1)
  plmsDecodeAux C acp sched tStart mo temperature nk.1 initialLatent nk.2
    (sched.ddim_timesteps.take tStart).length

/-- Embedding of `DDIMSampler.noise_an_image` (`ddim.py` lines 230-243) and the textually
identical `PLMSSampler.noise_an_image` (`plms.py` lines 251-266): clamp `t`
into `[0, 1000]`, then gather from `sqrt(schedule.ddim_alphas)` and
`schedule.ddim_sqrt_one_minus_alphas` (the subsampled arrays) at `t`, drawing
the noise from the stream when none is supplied.  `extract_into_tensor` is
modelled as a plain list gather. -/
def noise_an_image {ι : Type} (C : Ctx ι) (sched : Schedule)
    (initLatent : Tensor ι) (t : ℕ) (noiseArg : Option (Tensor ι)) (k : ℕ) :
    Tensor ι × ℕ :=
  let tc := min t 1000
  let sqrtAlphas := sched.ddim_alphas.map C.rsqrt
  let sqrtOneMinusAlphas := sched.ddim_sqrt_one_minus_alphas
  let nk : Tensor ι × ℕ :=
    match noiseArg with
    | some n => (n, k)
    | none => (C.rng k, k + 1)
  (fun j => sqrtAlphas.getD tc 0 * initLatent j + sqrtOneMinusAlphas.getD tc 0 * nk.1 j,
    nk.2)

/-- Scalar model of a torch float where the IEEE behaviour relevant to the
direction-term claim is kept: a value is either an (idealised, exact) number
or NaN.  `torch.Tensor.sqrt` maps a negative argument to NaN rather than
raising, and NaN propagates through arithmetic. -/
inductive TF : Type
  | num (q : ℚ) : TF
  | nan : TF
deriving DecidableEq

/-- IEEE-style addition on the NaN-aware scalars. -/
def TF.add : TF → TF → TF
  | TF.num a, TF.num b => TF.num (a + b)
  | _, _ => TF.nan

/-- IEEE-style subtraction on the NaN-aware scalars. -/
def TF.sub : TF → TF → TF
  | TF.num a, TF.num b => TF.num (a - b)
  | _, _ => TF.nan

/-- IEEE-style multiplication on the NaN-aware scalars (note that NaN times
zero is NaN, as in IEEE arithmetic). -/
def TF.mul : TF → TF → TF
  | TF.num a, TF.num b => TF.num (a * b)
  | _, _ => TF.nan

/-- Division on the NaN-aware scalars; division by zero is collapsed to NaN
(no claim exercises it: every divisor in the sources is a positive square
root). -/
def TF.div : TF → TF → TF
  | TF.num a, TF.num b => if b = 0 then TF.nan else TF.num (a / b)
  | _, _ => TF.nan

/-- Model of `torch.Tensor.sqrt` on the NaN-aware scalars: NaN on a negative argument
and on NaN, otherwise the nonnegative root delivered by the external
square-root primitive `rsqrt`. -/
def TF.sqrtF (rsqrt : ℚ → ℚ) : TF → TF
  | TF.num a => if a < 0 then TF.nan else TF.num (rsqrt a)
  | TF.nan => TF.nan

/-- The direction term of `_p_sample_ddim_formula` (`ddim.py` line 219) and of
`get_x_prev_and_pred_x0` (`plms.py` line 210) over the NaN-aware scalars:
`dir_xt = (1.0 - a_prev - sigma_t ** 2).sqrt() * noise_pred`, with no clamping
of the radicand. -/
def dirXtF (rsqrt : ℚ → ℚ) (aPrev sigmaT noisePred : TF) : TF :=
  TF.mul (TF.sqrtF rsqrt (TF.sub (TF.sub (TF.num 1) aPrev) (TF.mul sigmaT sigmaT)))
    noisePred

/-- Embedding of `_p_sample_ddim_formula` (`ddim.py` lines 205-228) over the NaN-aware
scalars, one element at a time; `z` is the `noise_like` draw and `dropFnF` the
external dropout primitive applied when `noise_dropout > 0`.  Returns
`(x_prev, predicted_latent)`. -/
def p_sample_ddim_formulaF (rsqrt : ℚ → ℚ) (dropFnF : TF → TF)
    (noisyLatent noisePred sqrtOneMinusAt aT sigmaT aPrev : TF)
    (noiseDropout : ℚ) (temperature z : TF) : TF × TF :=
  let predictedLatent :=
    TF.div (TF.sub noisyLatent (TF.mul sqrtOneMinusAt noisePred)) (TF.sqrtF rsqrt aT)
  let dirXt := dirXtF rsqrt aPrev sigmaT noisePred
  let noise := TF.mul (TF.mul sigmaT z) temperature
  let noise := if noiseDropout > 0 then dropFnF noise else noise
  (TF.add (TF.add (TF.mul (TF.sqrtF rsqrt aPrev) predictedLatent) dirXt) noise,
    predictedLatent)

/-- The direction term exactly as claim C1 words it:
`sqrt(max(0, 1 - a_prev - sigma_t^2)) * noise_pred`, the radicand clamped at
zero before the square root. -/
def dirXtClaimC1 (rsqrt : ℚ → ℚ) (aPrev sigmaT noisePred : TF) : TF :=
  TF.mul
    (TF.sqrtF rsqrt
      (match TF.sub (TF.sub (TF.num 1) aPrev) (TF.mul sigmaT sigmaT) with
        | TF.num r => TF.num (max 0 r)
        | TF.nan => TF.nan))
    noisePred

/-- The corrected PLMS noise prediction exactly as claim C3 words the
order-by-history-depth rule; `lookahead` is the prediction re-evaluated at the
trial next latent and next timestep (only consulted when the history is
empty). -/
def correctedPredSpec {ι : Type} (cur : Tensor ι) (hist : List (Tensor ι))
    (lookahead : Tensor ι) : Tensor ι :=
  if hist.length = 0 then
    fun j => (cur j + lookahead j) / 2
  else if hist.length = 1 then
    fun j => (3 * cur j - histGet hist 1 j) / 2
  else if hist.length = 2 then
    fun j => (23 * cur j - 16 * histGet hist 1 j + 5 * histGet hist 2 j) / 12
  else
    fun j =>
      (55 * cur j - 59 * histGet hist 1 j + 37 * histGet hist 2 j -
        9 * histGet hist 3 j) / 24

/-- The forward-noising formula exactly as claim C2 words it: the whole-range
arrays `sqrt_alphas_cumprod` / `sqrt_one_minus_alphas_cumprod` of length
`model_num_timesteps`, indexed by the model timestep `t`. -/
def noiseAnImageClaimC2 {ι : Type} (sched : Schedule) (x0 : Tensor ι) (t : ℕ)
    (noise : Tensor ι) : Tensor ι :=
  fun j =>
    sched.sqrt_alphas_cumprod.getD t 0 * x0 j +
      sched.sqrt_one_minus_alphas_cumprod.getD t 0 * noise j

/-- A concrete square-root primitive that is exact on the values reached by
the concrete counterexamples and witnesses below (all built from the
cumulative alpha 9/25, so that both it and its complement 16/25 have rational
roots). -/
def demoSqrt : ℚ → ℚ :=
  fun q => if q = 9 / 25 then 3 / 5 else if q = 16 / 25 then 4 / 5 else 0

/-- A concrete context over the one-point index type: the demo square root, a
noise predictor stub returning the zero tensor, and a zero draw stream. -/
def demoCtx : Ctx Unit :=
  { rsqrt := demoSqrt
    npred := fun _ _ => zeroT
    rng := fun _ => zeroT
    dropFn := fun t => t
    quantizeFn := fun t => t }

/-- A concrete context whose draw stream is constantly one (used to exhibit
dependence on the random stream). -/
def demoCtxOne : Ctx Unit :=
  { rsqrt := demoSqrt
    npred := fun _ _ => zeroT
    rng := fun _ => fun _ => 1
    dropFn := fun t => t
    quantizeFn := fun t => t }

/-- The constant model alpha table used by the concrete counterexamples: four
model timesteps, all with cumulative alpha 9/25. -/
def demoAcp : List ℚ := [9 / 25, 9 / 25, 9 / 25, 9 / 25]

/-- A model alpha table with distinct values whose roots demoSqrt knows:
timesteps 0 and 1 keep 16/25, timesteps 2 and 3 drop to 9/25. -/
def demoAcp2 : List ℚ := [16 / 25, 16 / 25, 9 / 25, 9 / 25]

/-- The constant-one tensor over the one-point index type. -/
def demoOne : Tensor Unit := fun _ => 1

/-- The zero initial latent over the one-point index type. -/
def demoX0 : Tensor Unit := fun _ => 0

/-- An all-ones mask paired with a constant-one original latent. -/
def demoMo : Option (Tensor Unit × Tensor Unit) := some (demoOne, demoOne)

/-- The one-step schedule built from the constant demo table. -/
def demoSched1 : Schedule := Schedule.buildDDIM demoSqrt 4 demoAcp 1 0

/-- The two-step schedule built from the two-level demo table. -/
def demoSched2 : Schedule := Schedule.buildDDIM demoSqrt 4 demoAcp2 2 0

/-! ## Theorems -/

/-- NaN absorbs addition on the right. -/
theorem TF.add_nan (a : TF) : TF.add a TF.nan = TF.nan := by
  cases a <;> rfl

/-- NaN absorbs addition on the left. -/
theorem TF.nan_add (b : TF) : TF.add TF.nan b = TF.nan := by
  cases b <;> rfl

/-- NaN absorbs multiplication on the left. -/
theorem TF.nan_mul (b : TF) : TF.mul TF.nan b = TF.nan := by
  cases b <;> rfl

/-- C1, counterexample: at `a_prev = 1/2`, `sigma_t = 1` the radicand
`1 - a_prev - sigma_t^2 = -1/2` is negative, and the direction term computed
by the code (`(1.0 - a_prev - sigma_t**2).sqrt() * noise_pred`, with no
clamping) is NaN — not the zero that the claim asserts, which is what the
claim-side clamped formula would produce. -/
theorem c1_direction_term_counterexample :
    ((1 : ℚ) - 1 / 2 - 1 ^ 2 < 0) ∧
    dirXtF demoSqrt (TF.num (1 / 2)) (TF.num 1) (TF.num 1) = TF.nan ∧
    dirXtF demoSqrt (TF.num (1 / 2)) (TF.num 1) (TF.num 1) ≠ TF.num 0 ∧
    dirXtClaimC1 demoSqrt (TF.num (1 / 2)) (TF.num 1) (TF.num 1) = TF.num 0 := by
  refine ⟨by norm_num, ?_, ?_, ?_⟩
  · norm_num [dirXtF, TF.sub, TF.mul, TF.sqrtF]
  · norm_num [dirXtF, TF.sub, TF.mul, TF.sqrtF]
    simp
  · norm_num [dirXtClaimC1, TF.sub, TF.mul, TF.sqrtF, demoSqrt]

/-- C1, amended: the code computes the direction term with no clamp of the
radicand; for every input with `1 - a_prev - sigma_t^2 < 0` the call does not
raise (square root is total, yielding NaN) and the direction term — and with
it the returned latent `x_prev` of the step formula — is NaN, not zero. -/
theorem c1_direction_term_nan (rsqrt : ℚ → ℚ) (dropFnF : TF → TF)
    (aPrev sigmaT : ℚ) (e x sqrtOneMinusAt aT : TF) (noiseDropout : ℚ)
    (temperature z : TF) (h : 1 - aPrev - sigmaT ^ 2 < 0) :
    dirXtF rsqrt (TF.num aPrev) (TF.num sigmaT) e = TF.nan ∧
    (p_sample_ddim_formulaF rsqrt dropFnF x e sqrtOneMinusAt aT (TF.num sigmaT)
        (TF.num aPrev) noiseDropout temperature z).1 = TF.nan := by
  have hd : dirXtF rsqrt (TF.num aPrev) (TF.num sigmaT) e = TF.nan := by
    have hr : (1 : ℚ) - aPrev - sigmaT * sigmaT < 0 := by nlinarith [sq_nonneg sigmaT]
    simp only [dirXtF, TF.sub, TF.mul, TF.sqrtF, if_pos hr]
  refine ⟨hd, ?_⟩
  simp only [p_sample_ddim_formulaF, hd]
  rw [TF.add_nan, TF.nan_add]

/-- C1, witness for the amended theorem at `a_prev = 1/2`, `sigma_t = 1`. -/
theorem c1_direction_term_nan_witness :
    ((1 : ℚ) - 1 / 2 - 1 ^ 2 < 0) ∧
    (dirXtF demoSqrt (TF.num (1 / 2)) (TF.num 1) (TF.num 1) = TF.nan ∧
      (p_sample_ddim_formulaF demoSqrt id (TF.num 0) (TF.num 1) (TF.num (4 / 5))
          (TF.num (9 / 25)) (TF.num 1) (TF.num (1 / 2)) 0 (TF.num 1)
          (TF.num 0)).1 = TF.nan) :=
  ⟨by norm_num,
    c1_direction_term_nan demoSqrt id (1 / 2) 1 (TF.num 1) (TF.num 0)
      (TF.num (4 / 5)) (TF.num (9 / 25)) 0 (TF.num 1) (TF.num 0) (by norm_num)⟩

/-- C2, counterexample: with the two-level alpha table, two schedule steps and
model timestep `t = 1`, `noise_an_image` (with zero noise and unit input)
returns `sqrt(ddim_alphas[1]) = sqrt(alphas_cumprod[3]) = 3/5`, whereas the
claimed whole-range gather `sqrt_alphas_cumprod[1] = sqrt(alphas_cumprod[1])`
is `4/5`: the coefficient arrays are the subsampled per-schedule-index arrays,
not the whole-range per-model-timestep arrays. -/
theorem c2_noise_an_image_counterexample :
    (noise_an_image demoCtx demoSched2 demoOne 1 (some zeroT) 0).1 () = 3 / 5 ∧
    noiseAnImageClaimC2 demoSched2 demoOne 1 zeroT () = 4 / 5 ∧
    (noise_an_image demoCtx demoSched2 demoOne 1 (some zeroT) 0).1 () ≠
      noiseAnImageClaimC2 demoSched2 demoOne 1 zeroT () := by
  refine ⟨?_, ?_, ?_⟩
  · norm_num [noise_an_image, demoCtx, demoSched2, Schedule.buildDDIM, demoAcp2,
      make_ddim_timesteps, make_ddim_sampling_parameters, demoSqrt, demoOne, zeroT,
      List.range_succ, ddim_sigma]
  · norm_num [noiseAnImageClaimC2, demoSched2, Schedule.buildDDIM, demoAcp2,
      make_ddim_timesteps, make_ddim_sampling_parameters, demoSqrt, demoOne, zeroT,
      List.range_succ, ddim_sigma]
  · norm_num [noise_an_image, noiseAnImageClaimC2, demoCtx, demoSched2,
      Schedule.buildDDIM, demoAcp2, make_ddim_timesteps,
      make_ddim_sampling_parameters, demoSqrt, demoOne, zeroT, List.range_succ,
      ddim_sigma]

/-- C2, amended: for a built schedule, `noise_an_image` treats `t` (clamped
into `[0, 1000]`) as a *schedule index* into the subsampled arrays: for
`t` below the schedule length it returns
`sqrt(alphas_cumprod[timesteps[t]]) * x_0 + sqrt(1 - alphas_cumprod[timesteps[t]]) * noise`,
where `timesteps = make_ddim_timesteps(...)`, not the whole-range gather at
model timestep `t`. -/
theorem c2_noise_an_image_amended {ι : Type} (C : Ctx ι) (T S : ℕ)
    (acp : List ℚ) (eta : ℚ) (x0 n : Tensor ι) (t k : ℕ) (h1000 : t ≤ 1000)
    (hT : t < (make_ddim_timesteps S T).length) :
    (noise_an_image C (Schedule.buildDDIM C.rsqrt T acp S eta) x0 t (some n) k).1 =
      fun j =>
        C.rsqrt (acp.getD ((make_ddim_timesteps S T).getD t 0) 0) * x0 j +
          C.rsqrt (1 - acp.getD ((make_ddim_timesteps S T).getD t 0) 0) * n j := by
  have hmin : min t 1000 = t := Nat.min_eq_left h1000
  have hlen : t < ((make_ddim_timesteps S T).map (fun u => acp.getD u 0)).length := by
    simpa using hT
  have hlen2 : t <
      (((make_ddim_timesteps S T).map (fun u => acp.getD u 0)).map C.rsqrt).length := by
    simpa using hT
  have hlen3 : t <
      (((make_ddim_timesteps S T).map (fun u => acp.getD u 0)).map
        (fun a => C.rsqrt (1 - a))).length := by
    simpa using hT
  funext j
  simp only [noise_an_image, Schedule.buildDDIM, make_ddim_sampling_parameters, hmin]
  rw [List.getD_eq_getElem _ _ hlen2, List.getD_eq_getElem _ _ hlen3]
  simp only [List.getElem_map, List.getElem_map]
  rw [List.getD_eq_getElem _ _ hT]

/-- C2, witness for the amended theorem at the two-level demo table,
two schedule steps, `t = 1`. -/
theorem c2_noise_an_image_amended_witness :
    (1 ≤ 1000 ∧ 1 < (make_ddim_timesteps 2 4).length) ∧
    (noise_an_image demoCtx (Schedule.buildDDIM demoCtx.rsqrt 4 demoAcp2 2 0)
        demoOne 1 (some zeroT) 0).1 =
      fun j =>
        demoCtx.rsqrt (demoAcp2.getD ((make_ddim_timesteps 2 4).getD 1 0) 0) *
            demoOne j +
          demoCtx.rsqrt (1 - demoAcp2.getD ((make_ddim_timesteps 2 4).getD 1 0) 0) *
            zeroT j :=
  ⟨⟨by decide, by decide⟩,
    c2_noise_an_image_amended demoCtx 4 2 demoAcp2 0 demoOne zeroT 1 0 (by decide)
      (by decide)⟩

/-- Dropping all but the three most recent history entries does not change any
of the three most recent entries. -/
theorem histGet_drop {ι : Type} (hist : List (Tensor ι)) (j : ℕ) (hj1 : 1 ≤ j)
    (hj3 : j ≤ 3) (hh : 3 ≤ hist.length) :
    histGet (hist.drop (hist.length - 3)) j = histGet hist j := by
  unfold histGet
  have hdlen : (hist.drop (hist.length - 3)).length = 3 := by
    rw [List.length_drop]; omega
  have e1 : (hist.drop (hist.length - 3)).getD (3 - j) zeroT =
      hist.getD (hist.length - 3 + (3 - j)) zeroT := by
    simp [List.getD, List.getElem?_drop]
  rw [hdlen, e1]
  congr 1
  omega

/-- C3: the PLMS corrected noise prediction follows the
order-by-history-depth rule of `correctedPredSpec` (with the lookahead
prediction re-evaluated at the trial next latent and the next timestep when
the history is empty), and with history length at least 3 only the three most
recent entries are used: dropping all older entries leaves the step
unchanged. -/
theorem c3_plms_corrector_order {ι : Type} (C : Ctx ι) (sched : Schedule)
    (x : Tensor ι) (ts index : ℕ) (qd : Bool) (temperature noiseDropout : ℚ)
    (hist : List (Tensor ι)) (tNext k : ℕ) :
    (p_sample_plms C sched x ts index qd temperature noiseDropout hist tNext k =
      (let cur := C.npred x ts
       if hist.length = 0 then
         let trial := get_x_prev_and_pred_x0 C sched x qd temperature
           noiseDropout cur index k
         let look := C.npred trial.xPrev tNext
         let r := get_x_prev_and_pred_x0 C sched x qd temperature noiseDropout
           (correctedPredSpec cur hist look) index trial.k
         ⟨r.xPrev, r.predX0, cur, r.k⟩
       else
         let r := get_x_prev_and_pred_x0 C sched x qd temperature noiseDropout
           (correctedPredSpec cur hist zeroT) index k
         ⟨r.xPrev, r.predX0, cur, r.k⟩)) ∧
    (3 ≤ hist.length →
      p_sample_plms C sched x ts index qd temperature noiseDropout hist tNext k =
        p_sample_plms C sched x ts index qd temperature noiseDropout
          (hist.drop (hist.length - 3)) tNext k) := by
  constructor
  · simp only [p_sample_plms, correctedPredSpec]
    split_ifs <;> rfl
  · intro h3
    have hdlen : (hist.drop (hist.length - 3)).length = 3 := by
      rw [List.length_drop]; omega
    have e1 := histGet_drop hist 1 (by omega) (by omega) h3
    have e2 := histGet_drop hist 2 (by omega) (by omega) h3
    have e3 := histGet_drop hist 3 (by omega) (by omega) h3
    simp only [p_sample_plms, hdlen, e1, e2, e3]
    split_ifs <;> first | rfl | omega | contradiction

/-- C3, witness for the three-most-recent part at a concrete history of
length four: the oldest entry is discarded. -/
theorem c3_plms_corrector_order_witness :
    3 ≤ ([demoOne, zeroT, zeroT, zeroT] : List (Tensor Unit)).length ∧
    p_sample_plms demoCtx demoSched1 demoX0 1 0 false 1 0
        [demoOne, zeroT, zeroT, zeroT] 1 0 =
      p_sample_plms demoCtx demoSched1 demoX0 1 0 false 1 0
        (([demoOne, zeroT, zeroT, zeroT] : List (Tensor Unit)).drop
          (([demoOne, zeroT, zeroT, zeroT] : List (Tensor Unit)).length - 3)) 1 0 :=
  ⟨by decide,
    (c3_plms_corrector_order demoCtx demoSched1 demoX0 1 0 false 1 0
        [demoOne, zeroT, zeroT, zeroT] 1 0).2 (by decide)⟩

/-- C8: for every call to `sample` (DDIM or PLMS) whose conditioning batch
dimension differs from `batch_size`, the call fails with the shape-mismatch
error.  The statement quantifies over every predictor, draw stream, mask,
latent and schedule input, so the error is produced independently of any of
them: no schedule step runs and no partial work is observable. -/
theorem c8_shape_mismatch_fails_fast {ι : Type} (C : Ctx ι)
    (modelNumTimesteps : ℕ) (acp : List ℚ) (numSteps condBatch batchSize : ℕ)
    (mo : Option (Tensor ι × Tensor ι)) (qd : Bool)
    (temperature noiseDropout : ℚ) (initialLatent : Option (Tensor ι))
    (hb : condBatch ≠ batchSize) :
    DDIMSampler.sample C modelNumTimesteps acp numSteps condBatch batchSize mo
        temperature noiseDropout initialLatent =
      Except.error "conditionings do not match batch size" ∧
    PLMSSampler.sample C modelNumTimesteps acp numSteps condBatch batchSize mo
        qd temperature noiseDropout initialLatent =
      Except.error "conditionings do not match batch size" := by
  constructor
  · simp only [DDIMSampler.sample, if_pos hb]
  · simp only [PLMSSampler.sample, if_pos hb]

/-- C8, witness at conditioning batch 2 against batch size 1. -/
theorem c8_shape_mismatch_fails_fast_witness :
    (2 ≠ 1) ∧
    (DDIMSampler.sample demoCtx 4 demoAcp 1 2 1 none 1 0 (some demoX0) =
        Except.error "conditionings do not match batch size" ∧
      PLMSSampler.sample demoCtx 4 demoAcp 1 2 1 none false 1 0 (some demoX0) =
        Except.error "conditionings do not match batch size") :=
  ⟨by decide,
    c8_shape_mismatch_fails_fast demoCtx 4 demoAcp 1 2 1 none false 1 0
      (some demoX0) (by decide)⟩

/-- The history push keeps the bound: from length at most 3 the
append-then-evict step returns to length at most 3. -/
theorem pushEps_length_le {ι : Type} (h : List (Tensor ι)) (e : Tensor ι)
    (hh : h.length ≤ 3) : (pushEps h e).length ≤ 3 := by
  simp only [pushEps]
  split_ifs with hc
  · simp only [List.length_tail, List.length_append, List.length_singleton]
    omega
  · simp only [List.length_append, List.length_singleton] at hc ⊢
    omega

/-- The last history entry after a push is the pushed value. -/
theorem pushEps_getLast? {ι : Type} (h : List (Tensor ι)) (e : Tensor ι) :
    (pushEps h e).getLast? = some e := by
  simp only [pushEps]
  split_ifs with hc
  · cases h with
    | nil => simp at hc
    | cons a t =>
        simp only [List.cons_append, List.tail_cons]
        exact List.getLast?_concat t
  · exact List.getLast?_concat h

/-- The third component returned by the PLMS step is the raw, uncorrected
noise prediction evaluated at the incoming latent and timestep, in every
history branch. -/
theorem p_sample_plms_ePred {ι : Type} (C : Ctx ι) (sched : Schedule)
    (x : Tensor ι) (ts index : ℕ) (qd : Bool) (temperature noiseDropout : ℚ)
    (hist : List (Tensor ι)) (tNext k : ℕ) :
    (p_sample_plms C sched x ts index qd temperature noiseDropout hist tNext
        k).ePred = C.npred x ts := by
  simp only [p_sample_plms]
  split_ifs <;> rfl

/-- C5: in every PLMS `sample` or `decode` call, after every loop iteration
the noise-prediction history has length at most 3, and the value appended to
the history by iteration `n` is the raw (uncorrected) current noise
prediction, evaluated at the composited latent and timestep of that iteration —
never the corrected value. -/
theorem c5_plms_history_invariant {ι : Type} (C : Ctx ι) (acp : List ℚ)
    (sched : Schedule) (mo : Option (Tensor ι × Tensor ι)) (qd : Bool)
    (temperature noiseDropout temperatureD : ℚ) (x0 x0d n0 : Tensor ι)
    (k0 k0d tStart : ℕ) :
    (∀ n, (plmsSampleAux C acp sched mo qd temperature noiseDropout x0 k0
        n).oldEps.length ≤ 3) ∧
    (∀ n, (plmsDecodeAux C acp sched tStart mo temperatureD n0 x0d k0d
        n).oldEps.length ≤ 3) ∧
    (∀ n, (plmsSampleAux C acp sched mo qd temperature noiseDropout x0 k0
        (n + 1)).oldEps.getLast? =
      some (C.npred
        (sampleMaskComposite C acp mo
          (plmsSampleAux C acp sched mo qd temperature noiseDropout x0 k0 n).x
          (sched.ddim_timesteps.reverse.getD n 0)
          (plmsSampleAux C acp sched mo qd temperature noiseDropout x0 k0 n).k).x
        (sched.ddim_timesteps.reverse.getD n 0))) ∧
    (∀ n, (plmsDecodeAux C acp sched tStart mo temperatureD n0 x0d k0d
        (n + 1)).oldEps.getLast? =
      some (C.npred
        (plmsDecodeMaskComposite C acp mo
          (plmsDecodeAux C acp sched tStart mo temperatureD n0 x0d k0d n).x
          ((sched.ddim_timesteps.take tStart).reverse.getD n 0) n n0
          (plmsDecodeAux C acp sched tStart mo temperatureD n0 x0d k0d n).k).x
        ((sched.ddim_timesteps.take tStart).reverse.getD n 0))) := by
  refine ⟨?_, ?_, ?_, ?_⟩
  · intro n
    induction n with
    | zero => simp [plmsSampleAux, LoopState.init]
    | succ n ih =>
        simp only [plmsSampleAux, plmsSampleIter]
        exact pushEps_length_le _ _ ih
  · intro n
    induction n with
    | zero => simp [plmsDecodeAux, LoopState.init]
    | succ n ih =>
        simp only [plmsDecodeAux, plmsDecodeIter]
        exact pushEps_length_le _ _ ih
  · intro n
    simp only [plmsSampleAux, plmsSampleIter, pushEps_getLast?,
      p_sample_plms_ePred]
  · intro n
    simp only [plmsDecodeAux, plmsDecodeIter, pushEps_getLast?,
      p_sample_plms_ePred]

/-- C9: with a mask and original latent supplied, the latent fed to the
solver at every iteration of `sample` (DDIM and PLMS alike) is exactly
`q_sample(orig_latent, ts) * mask + (1 - mask) * noisy_latent` — built from
the fresh `q_sample` draw of that iteration, with no hint blend at any
iteration — whereas `DDIMSampler.decode` blends the 0.8 raw-`orig_latent`
hint into the known region exactly on its first two iterations (`i < 2`) and
composites with the pure `q_sample` output from the third iteration on. -/
theorem c9_sample_composite_no_hints {ι : Type} (C : Ctx ι) (acp : List ℚ)
    (sched : Schedule) (mask orig x0 : Tensor ι) (qd : Bool)
    (temperature noiseDropout temperatureD : ℚ) (k0 tStart : ℕ) :
    (∀ n, (ddimSampleAux C acp sched (some (mask, orig)) temperature
        noiseDropout x0 k0 (n + 1)).comps.getLast? =
      some (fun j =>
        q_sample C.rsqrt acp orig (sched.ddim_timesteps.reverse.getD n 0)
            (C.rng (ddimSampleAux C acp sched (some (mask, orig)) temperature
              noiseDropout x0 k0 n).k) j * mask j +
          (1 - mask j) *
            (ddimSampleAux C acp sched (some (mask, orig)) temperature
              noiseDropout x0 k0 n).x j)) ∧
    (∀ n, (plmsSampleAux C acp sched (some (mask, orig)) qd temperature
        noiseDropout x0 k0 (n + 1)).comps.getLast? =
      some (fun j =>
        q_sample C.rsqrt acp orig (sched.ddim_timesteps.reverse.getD n 0)
            (C.rng (plmsSampleAux C acp sched (some (mask, orig)) qd temperature
              noiseDropout x0 k0 n).k) j * mask j +
          (1 - mask j) *
            (plmsSampleAux C acp sched (some (mask, orig)) qd temperature
              noiseDropout x0 k0 n).x j)) ∧
    (∀ n, (ddimDecodeAux C acp sched tStart (some (mask, orig)) temperatureD
        x0 k0 (n + 1)).knowns.getLast? =
      some (some
        (if n < 2 then
          fun j =>
            q_sample C.rsqrt acp orig
                ((sched.ddim_timesteps.take tStart).reverse.getD n 0)
                (C.rng (ddimDecodeAux C acp sched tStart (some (mask, orig))
                  temperatureD x0 k0 n).k) j * (1 - hintStrength) +
              orig j * hintStrength
        else
          q_sample C.rsqrt acp orig
            ((sched.ddim_timesteps.take tStart).reverse.getD n 0)
            (C.rng (ddimDecodeAux C acp sched tStart (some (mask, orig))
              temperatureD x0 k0 n).k)))) ∧
    (∀ n, (ddimDecodeAux C acp sched tStart (some (mask, orig)) temperatureD
        x0 k0 (n + 1)).comps.getLast? =
      some (fun j =>
        (if n < 2 then
          fun j2 =>
            q_sample C.rsqrt acp orig
                ((sched.ddim_timesteps.take tStart).reverse.getD n 0)
                (C.rng (ddimDecodeAux C acp sched tStart (some (mask, orig))
                  temperatureD x0 k0 n).k) j2 * (1 - hintStrength) +
              orig j2 * hintStrength
        else
          q_sample C.rsqrt acp orig
            ((sched.ddim_timesteps.take tStart).reverse.getD n 0)
            (C.rng (ddimDecodeAux C acp sched tStart (some (mask, orig))
              temperatureD x0 k0 n).k)) j * mask j +
          (1 - mask j) *
            (ddimDecodeAux C acp sched tStart (some (mask, orig)) temperatureD
              x0 k0 n).x j)) := by
  refine ⟨?_, ?_, ?_, ?_⟩
  · intro n
    simp only [ddimSampleAux, ddimSampleIter, sampleMaskComposite,
      List.getLast?_concat]
  · intro n
    simp only [plmsSampleAux, plmsSampleIter, sampleMaskComposite,
      List.getLast?_concat]
  · intro n
    simp only [ddimDecodeAux, ddimDecodeIter, ddimDecodeMaskComposite,
      List.getLast?_concat]
  · intro n
    simp only [ddimDecodeAux, ddimDecodeIter, ddimDecodeMaskComposite,
      List.getLast?_concat]

/-- The PLMS decode loop records exactly one `q_sample` noise entry per
iteration. -/
theorem plmsDecodeAux_qNoises_length {ι : Type} (C : Ctx ι) (acp : List ℚ)
    (sched : Schedule) (tStart : ℕ) (mo : Option (Tensor ι × Tensor ι))
    (temperature : ℚ) (n0 x0 : Tensor ι) (k0 : ℕ) (n : ℕ) :
    (plmsDecodeAux C acp sched tStart mo temperature n0 x0 k0 n).qNoises.length
      = n := by
  induction n with
  | zero => simp [plmsDecodeAux, LoopState.init]
  | succ n ih =>
      simp only [plmsDecodeAux, plmsDecodeIter, List.length_append,
        List.length_singleton, ih]

/-- The DDIM decode loop records exactly one `q_sample` noise entry per
iteration. -/
theorem ddimDecodeAux_qNoises_length {ι : Type} (C : Ctx ι) (acp : List ℚ)
    (sched : Schedule) (tStart : ℕ) (mo : Option (Tensor ι × Tensor ι))
    (temperature : ℚ) (x0 : Tensor ι) (k0 : ℕ) (n : ℕ) :
    (ddimDecodeAux C acp sched tStart mo temperature x0 k0 n).qNoises.length
      = n := by
  induction n with
  | zero => simp [ddimDecodeAux, LoopState.init]
  | succ n ih =>
      simp only [ddimDecodeAux, ddimDecodeIter, List.length_append,
        List.length_singleton, ih]

/-- A masked DDIM decode iteration consumes two stream draws: one inside
`q_sample` and one for `noise_like` in the step formula. -/
theorem ddimDecodeAux_k_masked {ι : Type} (C : Ctx ι) (acp : List ℚ)
    (sched : Schedule) (tStart : ℕ) (mask orig x0 : Tensor ι)
    (temperature : ℚ) (k0 : ℕ) (n : ℕ) :
    (ddimDecodeAux C acp sched tStart (some (mask, orig)) temperature x0 k0
        n).k = k0 + 2 * n := by
  induction n with
  | zero => simp [ddimDecodeAux, LoopState.init]
  | succ n ih =>
      simp only [ddimDecodeAux, ddimDecodeIter, ddimDecodeMaskComposite,
        p_sample_ddim, ih]
      omega

/-- C10: `PLMSSampler.decode` fixes one noise tensor before the loop — drawn
from the stream exactly when the `noise` argument is `None` — and the mask
compositing of every iteration hands `q_sample` that same tensor, so the
forward-noising noise is identical across all iterations of one decode call;
`DDIMSampler.decode`, by contrast, lets `q_sample` draw a fresh stream
position (`k0 + 2*j` at iteration `j`) on every masked iteration. -/
theorem c10_plms_decode_noise_reuse {ι : Type} (C : Ctx ι) (acp : List ℚ)
    (sched : Schedule) (tStart : ℕ) (mask orig x0 : Tensor ι)
    (temperature : ℚ) (n0 : Tensor ι) (k0 : ℕ) :
    (∀ n j, j < n →
      (plmsDecodeAux C acp sched tStart (some (mask, orig)) temperature n0 x0
          k0 n).qNoises.getD j none = some n0) ∧
    (PLMSSampler.decode C acp sched tStart (some (mask, orig)) temperature
        none x0 =
      plmsDecodeAux C acp sched tStart (some (mask, orig)) temperature
        (C.rng 0) x0 1 (sched.ddim_timesteps.take tStart).length) ∧
    (PLMSSampler.decode C acp sched tStart (some (mask, orig)) temperature
        (some n0) x0 =
      plmsDecodeAux C acp sched tStart (some (mask, orig)) temperature n0 x0 0
        (sched.ddim_timesteps.take tStart).length) ∧
    (∀ n j, j < n →
      (ddimDecodeAux C acp sched tStart (some (mask, orig)) temperature x0 k0
          n).qNoises.getD j none = some (C.rng (k0 + 2 * j))) := by
  refine ⟨?_, rfl, rfl, ?_⟩
  · intro n
    induction n with
    | zero => intro j hj; omega
    | succ n ih =>
        intro j hj
        simp only [plmsDecodeAux, plmsDecodeIter, plmsDecodeMaskComposite]
        rcases Nat.lt_or_ge j n with hlt | hge
        · rw [List.getD_append]
          · exact ih j hlt
          · rw [plmsDecodeAux_qNoises_length]; exact hlt
        · have hj' : j = n := by omega
          subst hj'
          rw [List.getD_append_right]
          · rw [plmsDecodeAux_qNoises_length]
            simp
          · rw [plmsDecodeAux_qNoises_length]
  · intro n
    induction n with
    | zero => intro j hj; omega
    | succ n ih =>
        intro j hj
        simp only [ddimDecodeAux, ddimDecodeIter, ddimDecodeMaskComposite]
        rcases Nat.lt_or_ge j n with hlt | hge
        · rw [List.getD_append]
          · exact ih j hlt
          · rw [ddimDecodeAux_qNoises_length]; exact hlt
        · have hj' : j = n := by omega
          subst hj'
          rw [List.getD_append_right]
          · rw [ddimDecodeAux_qNoises_length]
            simp only [Nat.sub_self, List.getD_cons_zero, Option.some.injEq]
            rw [ddimDecodeAux_k_masked]
          · rw [ddimDecodeAux_qNoises_length]

/-- C10, witness: after one masked iteration, the recorded `q_sample` noise
of the PLMS decode loop is the pre-loop tensor, and the one recorded by the
DDIM decode loop is the fresh draw at stream position 0. -/
theorem c10_plms_decode_noise_reuse_witness :
    (0 < 1) ∧
    (plmsDecodeAux demoCtx demoAcp demoSched1 1 (some (demoOne, demoOne)) 1
        demoOne demoX0 0 1).qNoises.getD 0 none = some demoOne ∧
    (ddimDecodeAux demoCtx demoAcp demoSched1 1 (some (demoOne, demoOne)) 1
        demoX0 0 1).qNoises.getD 0 none = some (demoCtx.rng (0 + 2 * 0)) :=
  ⟨by decide,
    (c10_plms_decode_noise_reuse demoCtx demoAcp demoSched1 1 demoOne demoOne
        demoX0 1 demoOne 0).1 1 0 (by decide),
    (c10_plms_decode_noise_reuse demoCtx demoAcp demoSched1 1 demoOne demoOne
        demoX0 1 demoOne 0).2.2.2 1 0 (by decide)⟩

/-- A `getD` with default 0 over a pointwise-zero `zipWith` is 0 at every
index. -/
theorem zipWith_zero_getD (f : ℚ → ℚ → ℚ) (hf : ∀ a b, f a b = 0) :
    ∀ (l1 l2 : List ℚ) (n : ℕ), (List.zipWith f l1 l2).getD n 0 = 0 := by
  intro l1
  induction l1 with
  | nil => intro l2 n; simp [List.getD_nil]
  | cons a t ih =>
      intro l2 n
      cases l2 with
      | nil => simp [List.getD_nil]
      | cons b t2 =>
          cases n with
          | zero => simp [List.zipWith_cons_cons, hf]
          | succ m =>
              simp only [List.zipWith_cons_cons, List.getD_cons_succ]
              exact ih t2 m

/-- With `eta = 0` every sigma of a built schedule is zero (also out of
range, where the lookup default is 0). -/
theorem buildDDIM_sigmas_zero (rsqrt : ℚ → ℚ) (T : ℕ) (acp : List ℚ) (S : ℕ) :
    ∀ idx, (Schedule.buildDDIM rsqrt T acp S 0).ddim_sigmas.getD idx 0 = 0 := by
  intro idx
  simp only [Schedule.buildDDIM, make_ddim_sampling_parameters]
  exact zipWith_zero_getD _ (fun a b => by simp [ddim_sigma]) _ _ idx

/-- With all sigmas zero and no mask, a DDIM sample iteration does not depend
on the draw stream. -/
theorem ddimSampleIter_rng_irrel {ι : Type} (rs : ℚ → ℚ)
    (np : Tensor ι → ℕ → Tensor ι) (r1 r2 : ℕ → Tensor ι)
    (df qf : Tensor ι → Tensor ι) (acp : List ℚ) (sched : Schedule)
    (temperature : ℚ) (hs : ∀ idx, sched.ddim_sigmas.getD idx 0 = 0)
    (s : LoopState ι) (i : ℕ) :
    ddimSampleIter ⟨rs, np, r1, df, qf⟩ acp sched none temperature 0 s i =
      ddimSampleIter ⟨rs, np, r2, df, qf⟩ acp sched none temperature 0 s i := by
  simp only [ddimSampleIter, sampleMaskComposite, p_sample_ddim,
    p_sample_ddim_formula, hs, zero_mul, add_zero, gt_iff_lt, lt_self_iff_false,
    if_false]

/-- With all sigmas zero and no mask, the whole DDIM sample loop does not
depend on the draw stream. -/
theorem ddimSampleAux_rng_irrel {ι : Type} (rs : ℚ → ℚ)
    (np : Tensor ι → ℕ → Tensor ι) (r1 r2 : ℕ → Tensor ι)
    (df qf : Tensor ι → Tensor ι) (acp : List ℚ) (sched : Schedule)
    (temperature : ℚ) (x0 : Tensor ι) (k0 : ℕ)
    (hs : ∀ idx, sched.ddim_sigmas.getD idx 0 = 0) :
    ∀ n, ddimSampleAux ⟨rs, np, r1, df, qf⟩ acp sched none temperature 0 x0 k0 n
      = ddimSampleAux ⟨rs, np, r2, df, qf⟩ acp sched none temperature 0 x0 k0 n := by
  intro n
  induction n with
  | zero => rfl
  | succ n ih =>
      simp only [ddimSampleAux, ih]
      exact ddimSampleIter_rng_irrel rs np r1 r2 df qf acp sched temperature hs
        _ n

/-- C4, counterexample: with a mask and original latent supplied, two DDIM
`sample` calls with identical inputs (same initial latent, same deterministic
noise predictor, eta 0, noise_dropout 0) but different ambient draw streams
return different latents — the masked compositing consumes a fresh `q_sample`
draw each iteration, so a masked `sample` is not fully deterministic. -/
theorem c4_masked_sample_counterexample :
    DDIMSampler.sample demoCtx 4 demoAcp 1 1 1 demoMo 1 0 (some demoX0) ≠
      DDIMSampler.sample demoCtxOne 4 demoAcp 1 1 1 demoMo 1 0 (some demoX0) := by
  intro h
  have h2 := congrArg (fun r => (Except.toOption r).map (fun f => f ())) h
  have e1 : (Except.toOption
      (DDIMSampler.sample demoCtx 4 demoAcp 1 1 1 demoMo 1 0
        (some demoX0))).map (fun f => f ()) = some (3 / 5) := by
    norm_num [DDIMSampler.sample, ddimSampleAux, ddimSampleIter,
      sampleMaskComposite, p_sample_ddim, p_sample_ddim_formula, q_sample,
      demoCtx, Schedule.buildDDIM, make_ddim_timesteps,
      make_ddim_sampling_parameters, ddim_sigma, demoAcp, demoMo, demoOne,
      demoX0, zeroT, demoSqrt, LoopState.init, List.range_succ, Except.toOption]
  have e2 : (Except.toOption
      (DDIMSampler.sample demoCtxOne 4 demoAcp 1 1 1 demoMo 1 0
        (some demoX0))).map (fun f => f ()) = some (7 / 5) := by
    norm_num [DDIMSampler.sample, ddimSampleAux, ddimSampleIter,
      sampleMaskComposite, p_sample_ddim, p_sample_ddim_formula, q_sample,
      demoCtxOne, Schedule.buildDDIM, make_ddim_timesteps,
      make_ddim_sampling_parameters, ddim_sigma, demoAcp, demoMo, demoOne,
      demoX0, zeroT, demoSqrt, LoopState.init, List.range_succ, Except.toOption]
  dsimp only at h2
  rw [e1, e2] at h2
  have h3 : (3 / 5 : ℚ) = 7 / 5 := Option.some.inj h2
  norm_num at h3

/-- C4, amended: for eta 0 (as `DDIMSampler.sample` always builds its
schedule) the sigmas are identically zero at every schedule index, and a
`sample` call without mask compositing and with noise_dropout 0 is fully
deterministic: two calls that differ only in the ambient Gaussian draw stream
return identical latents, for every initial latent and every deterministic
noise predictor. -/
theorem c4_eta_zero_sigmas_deterministic {ι : Type} (rs : ℚ → ℚ)
    (np : Tensor ι → ℕ → Tensor ι) (r1 r2 : ℕ → Tensor ι)
    (df qf : Tensor ι → Tensor ι) (T : ℕ) (acp : List ℚ)
    (S cb bs : ℕ) (temperature : ℚ) (x0 : Tensor ι) :
    (∀ idx, (Schedule.buildDDIM rs T acp S 0).ddim_sigmas.getD idx 0 = 0) ∧
    DDIMSampler.sample ⟨rs, np, r1, df, qf⟩ T acp S cb bs none temperature 0
        (some x0) =
      DDIMSampler.sample ⟨rs, np, r2, df, qf⟩ T acp S cb bs none temperature 0
        (some x0) := by
  refine ⟨buildDDIM_sigmas_zero rs T acp S, ?_⟩
  by_cases hb : cb ≠ bs
  · simp only [DDIMSampler.sample, if_pos hb]
  · simp only [DDIMSampler.sample, if_neg hb]
    have := ddimSampleAux_rng_irrel rs np r1 r2 df qf acp
      (Schedule.buildDDIM rs T acp S 0) temperature x0 0
      (buildDDIM_sigmas_zero rs T acp S)
      (Schedule.buildDDIM rs T acp S 0).ddim_timesteps.length
    rw [this]

/-- Without a mask, the DDIM decode loop walked over the full timestep list is
the DDIM sample loop, state for state (decode passes no `noise_dropout`, so
the comparison is at `noise_dropout = 0`). -/
theorem ddimDecodeAux_full_eq_sampleAux {ι : Type} (C : Ctx ι) (acp : List ℚ)
    (sched : Schedule) (temperature : ℚ) (x0 : Tensor ι) (k0 : ℕ) :
    ∀ n, ddimDecodeAux C acp sched sched.ddim_timesteps.length none temperature
        x0 k0 n =
      ddimSampleAux C acp sched none temperature 0 x0 k0 n := by
  intro n
  induction n with
  | zero => rfl
  | succ n ih =>
      simp only [ddimDecodeAux, ddimSampleAux, ih, ddimDecodeIter,
        ddimSampleIter, ddimDecodeMaskComposite, sampleMaskComposite,
        List.take_length]

/-- C6, counterexample: with an all-ones mask and constant-one original
latent over the one-step demo schedule, `decode` called with `t_start` equal
to the full schedule length returns the latent 23/25 (its first-two-iteration
hint blend fires), while `sample` with the same initial latent and the same
schedule returns 3/5: with a mask supplied, decode does not reproduce
the trajectory of sample. -/
theorem c6_decode_vs_sample_counterexample :
    (DDIMSampler.decode demoCtx demoAcp demoSched1
        demoSched1.ddim_timesteps.length demoMo 1 demoX0).x () = 23 / 25 ∧
    (Except.toOption
        (DDIMSampler.sample demoCtx 4 demoAcp 1 1 1 demoMo 1 0
          (some demoX0))).map (fun f => f ()) = some (3 / 5) ∧
    (23 / 25 : ℚ) ≠ 3 / 5 := by
  refine ⟨?_, ?_, by norm_num⟩
  · norm_num [DDIMSampler.decode, ddimDecodeAux, ddimDecodeIter,
      ddimDecodeMaskComposite, p_sample_ddim, p_sample_ddim_formula, q_sample,
      demoCtx, demoSched1, Schedule.buildDDIM, make_ddim_timesteps,
      make_ddim_sampling_parameters, ddim_sigma, demoAcp, demoMo, demoOne,
      demoX0, zeroT, demoSqrt, LoopState.init, List.range_succ, hintStrength]
  · norm_num [DDIMSampler.sample, ddimSampleAux, ddimSampleIter,
      sampleMaskComposite, p_sample_ddim, p_sample_ddim_formula, q_sample,
      demoCtx, Schedule.buildDDIM, make_ddim_timesteps,
      make_ddim_sampling_parameters, ddim_sigma, demoAcp, demoMo, demoOne,
      demoX0, zeroT, demoSqrt, LoopState.init, List.range_succ, Except.toOption]

/-- C6, amended: with no mask supplied (and `noise_dropout` 0, the value
decode is fixed to), `decode` called with `t_start` equal to the number of
schedule steps reproduces `sample` exactly: the full instrumented loop state
(trajectory included) coincides with the sample loop over the same schedule,
and `sample` returns precisely the final decode latent. -/
theorem c6_decode_truncation_of_sample {ι : Type} (C : Ctx ι) (acp : List ℚ)
    (sched : Schedule) (T S bs : ℕ) (temperature : ℚ) (x0 : Tensor ι) :
    (DDIMSampler.decode C acp sched sched.ddim_timesteps.length none
        temperature x0 =
      ddimSampleAux C acp sched none temperature 0 x0 0
        sched.ddim_timesteps.length) ∧
    (DDIMSampler.sample C T acp S bs bs none temperature 0 (some x0) =
      Except.ok
        (DDIMSampler.decode C acp (Schedule.buildDDIM C.rsqrt T acp S 0)
          (Schedule.buildDDIM C.rsqrt T acp S 0).ddim_timesteps.length none
          temperature x0).x) := by
  constructor
  · simp only [DDIMSampler.decode, List.take_length]
    exact ddimDecodeAux_full_eq_sampleAux C acp sched temperature x0 0 _
  · simp only [DDIMSampler.sample]
    rw [if_neg (fun hh => hh rfl)]
    rw [DDIMSampler.decode, List.take_length,
      ddimDecodeAux_full_eq_sampleAux]

/-- A pointwise-zero list has `getD` (default 0) equal to 0 everywhere. -/
theorem getD_zero_of_forall_mem (l : List ℚ) (h : ∀ s ∈ l, s = 0) (n : ℕ) :
    l.getD n 0 = 0 := by
  rcases Nat.lt_or_ge n l.length with hlt | hge
  · rw [List.getD_eq_getElem _ _ hlt]
    exact h _ (l.getElem_mem hlt)
  · exact List.getD_eq_default _ _ hge

/-- With an all-zeros mask the decode compositing is the identity on the
latent. -/
theorem ddimDecodeMaskComposite_zero_mask {ι : Type} (C : Ctx ι) (acp : List ℚ)
    (mask orig x : Tensor ι) (ts i k : ℕ) (hm : ∀ j, mask j = 0) :
    (ddimDecodeMaskComposite C acp (some (mask, orig)) x ts i k).x = x := by
  funext j
  simp only [ddimDecodeMaskComposite, hm]
  ring

/-- With an all-zeros mask the sample compositing is the identity on the
latent. -/
theorem sampleMaskComposite_zero_mask {ι : Type} (C : Ctx ι) (acp : List ℚ)
    (mask orig x : Tensor ι) (ts k : ℕ) (hm : ∀ j, mask j = 0) :
    (sampleMaskComposite C acp (some (mask, orig)) x ts k).x = x := by
  funext j
  simp only [sampleMaskComposite, hm]
  ring

/-- With an all-ones mask the composited decode latent is exactly the
(possibly hinted) known region recorded for the iteration. -/
theorem ddimDecodeMaskComposite_one_mask {ι : Type} (C : Ctx ι) (acp : List ℚ)
    (mask orig x : Tensor ι) (ts i k : ℕ) (hm : ∀ j, mask j = 1) :
    (ddimDecodeMaskComposite C acp (some (mask, orig)) x ts i k).known =
      some (ddimDecodeMaskComposite C acp (some (mask, orig)) x ts i k).x := by
  simp only [ddimDecodeMaskComposite, Option.some.injEq]
  funext j
  simp only [hm]
  ring

/-- With an all-ones mask the composited sample latent is exactly the
`q_sample` known region recorded for the iteration. -/
theorem sampleMaskComposite_one_mask {ι : Type} (C : Ctx ι) (acp : List ℚ)
    (mask orig x : Tensor ι) (ts k : ℕ) (hm : ∀ j, mask j = 1) :
    (sampleMaskComposite C acp (some (mask, orig)) x ts k).known =
      some (sampleMaskComposite C acp (some (mask, orig)) x ts k).x := by
  simp only [sampleMaskComposite, Option.some.injEq]
  funext j
  simp only [hm]
  ring

/-- With all sigmas zero, the `x_prev` of a DDIM step does not depend on the
draw position (`noise_dropout = 0`). -/
theorem p_sample_ddim_xPrev_sigma_zero {ι : Type} (C : Ctx ι)
    (sched : Schedule) (x : Tensor ι) (ts index : ℕ) (temperature : ℚ)
    (k1 k2 : ℕ) (hs : ∀ idx, sched.ddim_sigmas.getD idx 0 = 0) :
    (p_sample_ddim C sched x ts index temperature 0 k1).xPrev =
      (p_sample_ddim C sched x ts index temperature 0 k2).xPrev := by
  simp only [p_sample_ddim, p_sample_ddim_formula, hs, zero_mul, add_zero,
    gt_iff_lt, lt_self_iff_false, if_false]

/-- The decode compositing advances the draw counter by one when a mask is
present. -/
theorem ddimDecodeMaskComposite_k {ι : Type} (C : Ctx ι) (acp : List ℚ)
    (mask orig x : Tensor ι) (ts i k : ℕ) :
    (ddimDecodeMaskComposite C acp (some (mask, orig)) x ts i k).k = k + 1 :=
  rfl

/-- The sample compositing advances the draw counter by one when a mask is
present. -/
theorem sampleMaskComposite_k {ι : Type} (C : Ctx ι) (acp : List ℚ)
    (mask orig x : Tensor ι) (ts k : ℕ) :
    (sampleMaskComposite C acp (some (mask, orig)) x ts k).k = k + 1 :=
  rfl

/-- Without a mask the decode compositing leaves the draw counter unchanged. -/
theorem ddimDecodeMaskComposite_none_k {ι : Type} (C : Ctx ι) (acp : List ℚ)
    (x : Tensor ι) (ts i k : ℕ) :
    (ddimDecodeMaskComposite C acp none x ts i k).k = k :=
  rfl

/-- Without a mask the sample compositing leaves the draw counter unchanged. -/
theorem sampleMaskComposite_none_k {ι : Type} (C : Ctx ι) (acp : List ℚ)
    (x : Tensor ι) (ts k : ℕ) :
    (sampleMaskComposite C acp none x ts k).k = k :=
  rfl

/-- One all-zeros-masked DDIM decode iteration tracks the unmasked iteration:
latent and latent trace agree, and the masked draw counter stays exactly one
`q_sample` draw per past iteration ahead. -/
theorem ddimDecodeIter_zero_mask {ι : Type} (C : Ctx ι) (acp : List ℚ)
    (sched : Schedule) (tStart : ℕ) (temperature : ℚ) (mask orig : Tensor ι)
    (hm : ∀ j, mask j = 0) (hs : ∀ idx, sched.ddim_sigmas.getD idx 0 = 0)
    (s1 s2 : LoopState ι) (i : ℕ) (hx : s1.x = s2.x) (hxs : s1.xs = s2.xs)
    (hk : s1.k = s2.k + i) :
    (ddimDecodeIter C acp sched tStart (some (mask, orig)) temperature s1 i).x
        = (ddimDecodeIter C acp sched tStart none temperature s2 i).x ∧
    (ddimDecodeIter C acp sched tStart (some (mask, orig)) temperature s1 i).xs
        = (ddimDecodeIter C acp sched tStart none temperature s2 i).xs ∧
    (ddimDecodeIter C acp sched tStart (some (mask, orig)) temperature s1 i).k
        = (ddimDecodeIter C acp sched tStart none temperature s2 i).k +
          (i + 1) := by
  have hc : (ddimDecodeMaskComposite C acp (some (mask, orig)) s1.x
      ((sched.ddim_timesteps.take tStart).reverse.getD i 0) i s1.k).x = s2.x := by
    rw [ddimDecodeMaskComposite_zero_mask C acp mask orig s1.x _ i s1.k hm, hx]
  have hxp : (p_sample_ddim C sched
      (ddimDecodeMaskComposite C acp (some (mask, orig)) s1.x
        ((sched.ddim_timesteps.take tStart).reverse.getD i 0) i s1.k).x
      ((sched.ddim_timesteps.take tStart).reverse.getD i 0)
      ((sched.ddim_timesteps.take tStart).length - 1 - i) temperature 0
      (ddimDecodeMaskComposite C acp (some (mask, orig)) s1.x
        ((sched.ddim_timesteps.take tStart).reverse.getD i 0) i s1.k).k).xPrev =
      (p_sample_ddim C sched s2.x
        ((sched.ddim_timesteps.take tStart).reverse.getD i 0)
        ((sched.ddim_timesteps.take tStart).length - 1 - i) temperature 0
        s2.k).xPrev := by
    rw [hc, ddimDecodeMaskComposite_k]
    exact p_sample_ddim_xPrev_sigma_zero C sched s2.x _ _ temperature _ _ hs
  refine ⟨?_, ?_, ?_⟩
  · simp only [ddimDecodeIter]
    exact hxp
  · simp only [ddimDecodeIter]
    rw [hxs]
    exact congrArg (fun t => s2.xs ++ [t]) hxp
  · simp only [ddimDecodeIter, p_sample_ddim, ddimDecodeMaskComposite_k,
      ddimDecodeMaskComposite_none_k, hk]
    omega

/-- One all-zeros-masked DDIM sample iteration tracks the unmasked
iteration. -/
theorem ddimSampleIter_zero_mask {ι : Type} (C : Ctx ι) (acp : List ℚ)
    (sched : Schedule) (temperature : ℚ) (mask orig : Tensor ι)
    (hm : ∀ j, mask j = 0) (hs : ∀ idx, sched.ddim_sigmas.getD idx 0 = 0)
    (s1 s2 : LoopState ι) (i : ℕ) (hx : s1.x = s2.x) (hxs : s1.xs = s2.xs)
    (hk : s1.k = s2.k + i) :
    (ddimSampleIter C acp sched (some (mask, orig)) temperature 0 s1 i).x
        = (ddimSampleIter C acp sched none temperature 0 s2 i).x ∧
    (ddimSampleIter C acp sched (some (mask, orig)) temperature 0 s1 i).xs
        = (ddimSampleIter C acp sched none temperature 0 s2 i).xs ∧
    (ddimSampleIter C acp sched (some (mask, orig)) temperature 0 s1 i).k
        = (ddimSampleIter C acp sched none temperature 0 s2 i).k + (i + 1) := by
  have hc : (sampleMaskComposite C acp (some (mask, orig)) s1.x
      (sched.ddim_timesteps.reverse.getD i 0) s1.k).x = s2.x := by
    rw [sampleMaskComposite_zero_mask C acp mask orig s1.x _ s1.k hm, hx]
  have hxp : (p_sample_ddim C sched
      (sampleMaskComposite C acp (some (mask, orig)) s1.x
        (sched.ddim_timesteps.reverse.getD i 0) s1.k).x
      (sched.ddim_timesteps.reverse.getD i 0)
      (sched.ddim_timesteps.length - 1 - i) temperature 0
      (sampleMaskComposite C acp (some (mask, orig)) s1.x
        (sched.ddim_timesteps.reverse.getD i 0) s1.k).k).xPrev =
      (p_sample_ddim C sched s2.x (sched.ddim_timesteps.reverse.getD i 0)
        (sched.ddim_timesteps.length - 1 - i) temperature 0 s2.k).xPrev := by
    rw [hc, sampleMaskComposite_k]
    exact p_sample_ddim_xPrev_sigma_zero C sched s2.x _ _ temperature _ _ hs
  refine ⟨?_, ?_, ?_⟩
  · simp only [ddimSampleIter]
    exact hxp
  · simp only [ddimSampleIter]
    rw [hxs]
    exact congrArg (fun t => s2.xs ++ [t]) hxp
  · simp only [ddimSampleIter, p_sample_ddim, sampleMaskComposite_k,
      sampleMaskComposite_none_k, hk]
    omega

/-- All-zeros-masked DDIM decode trajectory equals the unmasked one (sigma
zero schedule). -/
theorem ddimDecodeAux_zero_mask {ι : Type} (C : Ctx ι) (acp : List ℚ)
    (sched : Schedule) (tStart : ℕ) (temperature : ℚ) (mask orig x0 : Tensor ι)
    (k0 : ℕ) (hm : ∀ j, mask j = 0)
    (hs : ∀ idx, sched.ddim_sigmas.getD idx 0 = 0) :
    ∀ n,
      (ddimDecodeAux C acp sched tStart (some (mask, orig)) temperature x0 k0
          n).x
        = (ddimDecodeAux C acp sched tStart none temperature x0 k0 n).x ∧
      (ddimDecodeAux C acp sched tStart (some (mask, orig)) temperature x0 k0
          n).xs
        = (ddimDecodeAux C acp sched tStart none temperature x0 k0 n).xs ∧
      (ddimDecodeAux C acp sched tStart (some (mask, orig)) temperature x0 k0
          n).k
        = (ddimDecodeAux C acp sched tStart none temperature x0 k0 n).k + n := by
  intro n
  induction n with
  | zero => exact ⟨rfl, rfl, rfl⟩
  | succ n ih =>
      obtain ⟨hx, hxs, hk⟩ := ih
      exact ddimDecodeIter_zero_mask C acp sched tStart temperature mask orig
        hm hs _ _ n hx hxs hk

/-- All-zeros-masked DDIM sample trajectory equals the unmasked one (sigma
zero schedule). -/
theorem ddimSampleAux_zero_mask {ι : Type} (C : Ctx ι) (acp : List ℚ)
    (sched : Schedule) (temperature : ℚ) (mask orig x0 : Tensor ι) (k0 : ℕ)
    (hm : ∀ j, mask j = 0) (hs : ∀ idx, sched.ddim_sigmas.getD idx 0 = 0) :
    ∀ n,
      (ddimSampleAux C acp sched (some (mask, orig)) temperature 0 x0 k0 n).x
        = (ddimSampleAux C acp sched none temperature 0 x0 k0 n).x ∧
      (ddimSampleAux C acp sched (some (mask, orig)) temperature 0 x0 k0 n).xs
        = (ddimSampleAux C acp sched none temperature 0 x0 k0 n).xs ∧
      (ddimSampleAux C acp sched (some (mask, orig)) temperature 0 x0 k0 n).k
        = (ddimSampleAux C acp sched none temperature 0 x0 k0 n).k + n := by
  intro n
  induction n with
  | zero => exact ⟨rfl, rfl, rfl⟩
  | succ n ih =>
      obtain ⟨hx, hxs, hk⟩ := ih
      exact ddimSampleIter_zero_mask C acp sched temperature mask orig hm hs
        _ _ n hx hxs hk

/-- All-ones-masked DDIM decode: the known-region trace is exactly the
composited-latent trace. -/
theorem ddimDecodeAux_one_mask {ι : Type} (C : Ctx ι) (acp : List ℚ)
    (sched : Schedule) (tStart : ℕ) (temperature : ℚ) (mask orig x0 : Tensor ι)
    (k0 : ℕ) (hm : ∀ j, mask j = 1) :
    ∀ n,
      (ddimDecodeAux C acp sched tStart (some (mask, orig)) temperature x0 k0
          n).knowns
        = (ddimDecodeAux C acp sched tStart (some (mask, orig)) temperature x0
            k0 n).comps.map some := by
  intro n
  induction n with
  | zero => rfl
  | succ n ih =>
      simp only [ddimDecodeAux, ddimDecodeIter, List.map_append, ih,
        List.map_cons, List.map_nil]
      rw [ddimDecodeMaskComposite_one_mask C acp mask orig _ _ n _ hm]

/-- All-ones-masked DDIM sample: the known-region trace is exactly the
composited-latent trace. -/
theorem ddimSampleAux_one_mask {ι : Type} (C : Ctx ι) (acp : List ℚ)
    (sched : Schedule) (temperature noiseDropout : ℚ) (mask orig x0 : Tensor ι)
    (k0 : ℕ) (hm : ∀ j, mask j = 1) :
    ∀ n,
      (ddimSampleAux C acp sched (some (mask, orig)) temperature noiseDropout
          x0 k0 n).knowns
        = (ddimSampleAux C acp sched (some (mask, orig)) temperature
            noiseDropout x0 k0 n).comps.map some := by
  intro n
  induction n with
  | zero => rfl
  | succ n ih =>
      simp only [ddimSampleAux, ddimSampleIter, List.map_append, ih,
        List.map_cons, List.map_nil]
      rw [sampleMaskComposite_one_mask C acp mask orig _ _ _ hm]

/-- With an all-zeros mask the PLMS decode compositing is the identity on
the latent. -/
theorem plmsDecodeMaskComposite_zero_mask {ι : Type} (C : Ctx ι)
    (acp : List ℚ) (mask orig x : Tensor ι) (ts i : ℕ) (n : Tensor ι) (k : ℕ)
    (hm : ∀ j, mask j = 0) :
    (plmsDecodeMaskComposite C acp (some (mask, orig)) x ts i n k).x = x := by
  funext j
  simp only [plmsDecodeMaskComposite, hm]
  ring

/-- With an all-ones mask the composited PLMS decode latent is exactly the
(possibly hinted) known region recorded for the iteration. -/
theorem plmsDecodeMaskComposite_one_mask {ι : Type} (C : Ctx ι) (acp : List ℚ)
    (mask orig x : Tensor ι) (ts i : ℕ) (n : Tensor ι) (k : ℕ)
    (hm : ∀ j, mask j = 1) :
    (plmsDecodeMaskComposite C acp (some (mask, orig)) x ts i n k).known =
      some (plmsDecodeMaskComposite C acp (some (mask, orig)) x ts i n k).x := by
  simp only [plmsDecodeMaskComposite, Option.some.injEq]
  funext j
  simp only [hm]
  ring

/-- The PLMS decode compositing never consumes a draw: it reuses the fixed
pre-loop noise tensor (masked case). -/
theorem plmsDecodeMaskComposite_some_k {ι : Type} (C : Ctx ι) (acp : List ℚ)
    (mask orig x : Tensor ι) (ts i : ℕ) (n : Tensor ι) (k : ℕ) :
    (plmsDecodeMaskComposite C acp (some (mask, orig)) x ts i n k).k = k :=
  rfl

/-- The PLMS decode compositing never consumes a draw (unmasked case). -/
theorem plmsDecodeMaskComposite_none_k {ι : Type} (C : Ctx ι) (acp : List ℚ)
    (x : Tensor ι) (ts i : ℕ) (n : Tensor ι) (k : ℕ) :
    (plmsDecodeMaskComposite C acp none x ts i n k).k = k :=
  rfl

/-- Without a mask the PLMS decode compositing leaves the latent unchanged. -/
theorem plmsDecodeMaskComposite_none_x {ι : Type} (C : Ctx ι) (acp : List ℚ)
    (x : Tensor ι) (ts i : ℕ) (n : Tensor ι) (k : ℕ) :
    (plmsDecodeMaskComposite C acp none x ts i n k).x = x :=
  rfl

/-- Without a mask the sample compositing leaves the latent unchanged. -/
theorem sampleMaskComposite_none_x {ι : Type} (C : Ctx ι) (acp : List ℚ)
    (x : Tensor ι) (ts k : ℕ) :
    (sampleMaskComposite C acp none x ts k).x = x :=
  rfl

/-- The shared PLMS step formula consumes exactly one draw. -/
theorem get_x_prev_k {ι : Type} (C : Ctx ι) (sched : Schedule) (x : Tensor ι)
    (qd : Bool) (temperature noiseDropout : ℚ) (eT : Tensor ι) (index k : ℕ) :
    (get_x_prev_and_pred_x0 C sched x qd temperature noiseDropout eT index
        k).k = k + 1 :=
  rfl

/-- With all sigmas zero, the latent produced by the shared PLMS step formula
does not depend on the draw position. -/
theorem get_x_prev_sigma_zero_k_irrel {ι : Type} (C : Ctx ι)
    (sched : Schedule) (x : Tensor ι) (qd : Bool)
    (temperature noiseDropout : ℚ) (eT : Tensor ι) (index k1 k2 : ℕ)
    (hs : ∀ idx, sched.ddim_sigmas.getD idx 0 = 0) :
    (get_x_prev_and_pred_x0 C sched x qd temperature noiseDropout eT index
        k1).xPrev =
      (get_x_prev_and_pred_x0 C sched x qd temperature noiseDropout eT index
        k2).xPrev := by
  simp only [get_x_prev_and_pred_x0, hs, zero_mul]

/-- The PLMS step consumes two draws on the empty-history (trial plus final)
path and one draw otherwise. -/
theorem p_sample_plms_k {ι : Type} (C : Ctx ι) (sched : Schedule)
    (x : Tensor ι) (ts index : ℕ) (qd : Bool) (temperature noiseDropout : ℚ)
    (hist : List (Tensor ι)) (tNext k : ℕ) :
    (p_sample_plms C sched x ts index qd temperature noiseDropout hist tNext
        k).k = if hist.length = 0 then k + 2 else k + 1 := by
  simp only [p_sample_plms]
  split_ifs <;> rfl

/-- With all sigmas zero, the latent produced by the full PLMS step does not
depend on the draw position (the lookahead of the empty-history path is taken
at the same trial latent on both sides). -/
theorem p_sample_plms_sigma_zero_k_irrel {ι : Type} (C : Ctx ι)
    (sched : Schedule) (x : Tensor ι) (ts index : ℕ) (qd : Bool)
    (temperature noiseDropout : ℚ) (hist : List (Tensor ι)) (tNext k1 k2 : ℕ)
    (hs : ∀ idx, sched.ddim_sigmas.getD idx 0 = 0) :
    (p_sample_plms C sched x ts index qd temperature noiseDropout hist tNext
        k1).xPrev =
      (p_sample_plms C sched x ts index qd temperature noiseDropout hist tNext
        k2).xPrev := by
  simp only [p_sample_plms]
  split_ifs with h0 h1 h2
  · have ht := get_x_prev_sigma_zero_k_irrel C sched x qd temperature
      noiseDropout (C.npred x ts) index k1 k2 hs
    simp only [ht, get_x_prev_k]
    exact get_x_prev_sigma_zero_k_irrel C sched x qd temperature noiseDropout
      _ index (k1 + 1) (k2 + 1) hs
  · exact get_x_prev_sigma_zero_k_irrel C sched x qd temperature noiseDropout
      _ index k1 k2 hs
  · exact get_x_prev_sigma_zero_k_irrel C sched x qd temperature noiseDropout
      _ index k1 k2 hs
  · exact get_x_prev_sigma_zero_k_irrel C sched x qd temperature noiseDropout
      _ index k1 k2 hs

/-- One all-zeros-masked PLMS sample iteration tracks the unmasked
iteration: latent, latent trace and history agree, and the masked draw
counter stays exactly one `q_sample` draw per past iteration ahead. -/
theorem plmsSampleIter_zero_mask {ι : Type} (C : Ctx ι) (acp : List ℚ)
    (sched : Schedule) (qd : Bool) (temperature noiseDropout : ℚ)
    (mask orig : Tensor ι) (hm : ∀ j, mask j = 0)
    (hs : ∀ idx, sched.ddim_sigmas.getD idx 0 = 0) (s1 s2 : LoopState ι)
    (i : ℕ) (hx : s1.x = s2.x) (hxs : s1.xs = s2.xs)
    (heps : s1.oldEps = s2.oldEps) (hk : s1.k = s2.k + i) :
    (plmsSampleIter C acp sched (some (mask, orig)) qd temperature
        noiseDropout s1 i).x
      = (plmsSampleIter C acp sched none qd temperature noiseDropout s2 i).x ∧
    (plmsSampleIter C acp sched (some (mask, orig)) qd temperature
        noiseDropout s1 i).xs
      = (plmsSampleIter C acp sched none qd temperature noiseDropout s2 i).xs ∧
    (plmsSampleIter C acp sched (some (mask, orig)) qd temperature
        noiseDropout s1 i).oldEps
      = (plmsSampleIter C acp sched none qd temperature noiseDropout s2
          i).oldEps ∧
    (plmsSampleIter C acp sched (some (mask, orig)) qd temperature
        noiseDropout s1 i).k
      = (plmsSampleIter C acp sched none qd temperature noiseDropout s2 i).k +
        (i + 1) := by
  have hcx : ∀ ts k, (sampleMaskComposite C acp (some (mask, orig)) s1.x ts
      k).x = s2.x := by
    intro ts k
    rw [sampleMaskComposite_zero_mask C acp mask orig s1.x ts k hm, hx]
  have hxp : ∀ ts idx tsN,
      (p_sample_plms C sched s2.x ts idx qd temperature noiseDropout s2.oldEps
        tsN (s2.k + i + 1)).xPrev =
      (p_sample_plms C sched s2.x ts idx qd temperature noiseDropout s2.oldEps
        tsN s2.k).xPrev := by
    intro ts idx tsN
    exact p_sample_plms_sigma_zero_k_irrel C sched s2.x ts idx qd temperature
      noiseDropout s2.oldEps tsN (s2.k + i + 1) s2.k hs
  refine ⟨?_, ?_, ?_, ?_⟩
  · simp only [plmsSampleIter, hcx, sampleMaskComposite_k,
      sampleMaskComposite_none_x, sampleMaskComposite_none_k, heps, hk, hxp]
  · simp only [plmsSampleIter, hcx, sampleMaskComposite_k,
      sampleMaskComposite_none_x, sampleMaskComposite_none_k, heps, hk, hxs,
      hxp]
  · simp only [plmsSampleIter, hcx, sampleMaskComposite_k,
      sampleMaskComposite_none_x, sampleMaskComposite_none_k, heps, hk,
      p_sample_plms_ePred]
  · simp only [plmsSampleIter, hcx, sampleMaskComposite_k,
      sampleMaskComposite_none_x, sampleMaskComposite_none_k, heps, hk,
      p_sample_plms_k]
    split_ifs <;> omega

/-- All-zeros-masked PLMS sample trajectory equals the unmasked one (sigma
zero schedule). -/
theorem plmsSampleAux_zero_mask {ι : Type} (C : Ctx ι) (acp : List ℚ)
    (sched : Schedule) (qd : Bool) (temperature noiseDropout : ℚ)
    (mask orig x0 : Tensor ι) (k0 : ℕ) (hm : ∀ j, mask j = 0)
    (hs : ∀ idx, sched.ddim_sigmas.getD idx 0 = 0) :
    ∀ n,
      (plmsSampleAux C acp sched (some (mask, orig)) qd temperature
          noiseDropout x0 k0 n).x
        = (plmsSampleAux C acp sched none qd temperature noiseDropout x0 k0
            n).x ∧
      (plmsSampleAux C acp sched (some (mask, orig)) qd temperature
          noiseDropout x0 k0 n).xs
        = (plmsSampleAux C acp sched none qd temperature noiseDropout x0 k0
            n).xs ∧
      (plmsSampleAux C acp sched (some (mask, orig)) qd temperature
          noiseDropout x0 k0 n).oldEps
        = (plmsSampleAux C acp sched none qd temperature noiseDropout x0 k0
            n).oldEps ∧
      (plmsSampleAux C acp sched (some (mask, orig)) qd temperature
          noiseDropout x0 k0 n).k
        = (plmsSampleAux C acp sched none qd temperature noiseDropout x0 k0
            n).k + n := by
  intro n
  induction n with
  | zero => exact ⟨rfl, rfl, rfl, rfl⟩
  | succ n ih =>
      obtain ⟨hx, hxs, heps, hk⟩ := ih
      exact plmsSampleIter_zero_mask C acp sched qd temperature noiseDropout
        mask orig hm hs _ _ n hx hxs heps hk

/-- One all-zeros-masked PLMS decode iteration tracks the unmasked iteration
exactly: the decode compositing consumes no draw, so even the counters
agree. -/
theorem plmsDecodeIter_zero_mask {ι : Type} (C : Ctx ι) (acp : List ℚ)
    (sched : Schedule) (tStart : ℕ) (temperature : ℚ) (n0 : Tensor ι)
    (mask orig : Tensor ι) (hm : ∀ j, mask j = 0) (s1 s2 : LoopState ι)
    (i : ℕ) (hx : s1.x = s2.x) (hxs : s1.xs = s2.xs)
    (heps : s1.oldEps = s2.oldEps) (hk : s1.k = s2.k) :
    (plmsDecodeIter C acp sched tStart (some (mask, orig)) temperature n0 s1
        i).x
      = (plmsDecodeIter C acp sched tStart none temperature n0 s2 i).x ∧
    (plmsDecodeIter C acp sched tStart (some (mask, orig)) temperature n0 s1
        i).xs
      = (plmsDecodeIter C acp sched tStart none temperature n0 s2 i).xs ∧
    (plmsDecodeIter C acp sched tStart (some (mask, orig)) temperature n0 s1
        i).oldEps
      = (plmsDecodeIter C acp sched tStart none temperature n0 s2 i).oldEps ∧
    (plmsDecodeIter C acp sched tStart (some (mask, orig)) temperature n0 s1
        i).k
      = (plmsDecodeIter C acp sched tStart none temperature n0 s2 i).k := by
  have hcx : ∀ ts k, (plmsDecodeMaskComposite C acp (some (mask, orig)) s1.x
      ts i n0 k).x = s2.x := by
    intro ts k
    rw [plmsDecodeMaskComposite_zero_mask C acp mask orig s1.x ts i n0 k hm,
      hx]
  refine ⟨?_, ?_, ?_, ?_⟩ <;>
    simp only [plmsDecodeIter, hcx, plmsDecodeMaskComposite_some_k,
      plmsDecodeMaskComposite_none_x, plmsDecodeMaskComposite_none_k, heps,
      hk, hxs]

/-- All-zeros-masked PLMS decode trajectory equals the unmasked one (no sigma
hypothesis needed: the decode compositing consumes no draw). -/
theorem plmsDecodeAux_zero_mask {ι : Type} (C : Ctx ι) (acp : List ℚ)
    (sched : Schedule) (tStart : ℕ) (temperature : ℚ)
    (n0 mask orig x0 : Tensor ι) (k0 : ℕ) (hm : ∀ j, mask j = 0) :
    ∀ n,
      (plmsDecodeAux C acp sched tStart (some (mask, orig)) temperature n0 x0
          k0 n).x
        = (plmsDecodeAux C acp sched tStart none temperature n0 x0 k0 n).x ∧
      (plmsDecodeAux C acp sched tStart (some (mask, orig)) temperature n0 x0
          k0 n).xs
        = (plmsDecodeAux C acp sched tStart none temperature n0 x0 k0 n).xs ∧
      (plmsDecodeAux C acp sched tStart (some (mask, orig)) temperature n0 x0
          k0 n).oldEps
        = (plmsDecodeAux C acp sched tStart none temperature n0 x0 k0
            n).oldEps ∧
      (plmsDecodeAux C acp sched tStart (some (mask, orig)) temperature n0 x0
          k0 n).k
        = (plmsDecodeAux C acp sched tStart none temperature n0 x0 k0 n).k := by
  intro n
  induction n with
  | zero => exact ⟨rfl, rfl, rfl, rfl⟩
  | succ n ih =>
      obtain ⟨hx, hxs, heps, hk⟩ := ih
      exact plmsDecodeIter_zero_mask C acp sched tStart temperature n0 mask
        orig hm _ _ n hx hxs heps hk

/-- All-ones-masked PLMS sample: the known-region trace is exactly the
composited-latent trace. -/
theorem plmsSampleAux_one_mask {ι : Type} (C : Ctx ι) (acp : List ℚ)
    (sched : Schedule) (qd : Bool) (temperature noiseDropout : ℚ)
    (mask orig x0 : Tensor ι) (k0 : ℕ) (hm : ∀ j, mask j = 1) :
    ∀ n,
      (plmsSampleAux C acp sched (some (mask, orig)) qd temperature
          noiseDropout x0 k0 n).knowns
        = (plmsSampleAux C acp sched (some (mask, orig)) qd temperature
            noiseDropout x0 k0 n).comps.map some := by
  intro n
  induction n with
  | zero => rfl
  | succ n ih =>
      simp only [plmsSampleAux, plmsSampleIter, List.map_append, ih,
        List.map_cons, List.map_nil]
      rw [sampleMaskComposite_one_mask C acp mask orig _ _ _ hm]

/-- All-ones-masked PLMS decode: the known-region trace is exactly the
composited-latent trace. -/
theorem plmsDecodeAux_one_mask {ι : Type} (C : Ctx ι) (acp : List ℚ)
    (sched : Schedule) (tStart : ℕ) (temperature : ℚ)
    (n0 mask orig x0 : Tensor ι) (k0 : ℕ) (hm : ∀ j, mask j = 1) :
    ∀ n,
      (plmsDecodeAux C acp sched tStart (some (mask, orig)) temperature n0 x0
          k0 n).knowns
        = (plmsDecodeAux C acp sched tStart (some (mask, orig)) temperature n0
            x0 k0 n).comps.map some := by
  intro n
  induction n with
  | zero => rfl
  | succ n ih =>
      simp only [plmsDecodeAux, plmsDecodeIter, List.map_append, ih,
        List.map_cons, List.map_nil]
      rw [plmsDecodeMaskComposite_one_mask C acp mask orig _ _ n n0 _ hm]

/-- C7: mask compositing boundary cases, for the DDIM and PLMS loops alike.
With an all-zeros mask every composite step is the identity on the latent and
the decode / sample trajectories (latent and latent trace) equal the unmasked
trajectories; the sample loops and DDIM decode need the hypothesis that all
schedule sigmas are zero (true of every schedule the samplers build, since
they fix eta = 0), because their masked iterations consume extra draws, while
PLMS decode reuses its pre-loop noise tensor and needs no such hypothesis.
With an all-ones mask the composited latent of every iteration equals the
forward-noised known region recorded for that iteration (the free-denoising
branch has zero weight), for both decodes and both samples. -/
theorem c7_mask_boundary_cases {ι : Type} (C : Ctx ι) (acp : List ℚ)
    (sched : Schedule) (tStart : ℕ) (qd : Bool)
    (temperature noiseDropout : ℚ) (n0 : Tensor ι)
    (mask0 orig0 mask1 orig1 x0 : Tensor ι) (k0 : ℕ)
    (hm0 : ∀ j, mask0 j = 0) (hm1 : ∀ j, mask1 j = 1)
    (hs : ∀ idx, sched.ddim_sigmas.getD idx 0 = 0) :
    (∀ (x : Tensor ι) (ts i k : ℕ),
      (ddimDecodeMaskComposite C acp (some (mask0, orig0)) x ts i k).x = x) ∧
    (∀ (x : Tensor ι) (ts k : ℕ),
      (sampleMaskComposite C acp (some (mask0, orig0)) x ts k).x = x) ∧
    (∀ (x : Tensor ι) (ts i k : ℕ),
      (plmsDecodeMaskComposite C acp (some (mask0, orig0)) x ts i n0 k).x
        = x) ∧
    (∀ n,
      (ddimDecodeAux C acp sched tStart (some (mask0, orig0)) temperature x0
          k0 n).x
        = (ddimDecodeAux C acp sched tStart none temperature x0 k0 n).x ∧
      (ddimDecodeAux C acp sched tStart (some (mask0, orig0)) temperature x0
          k0 n).xs
        = (ddimDecodeAux C acp sched tStart none temperature x0 k0 n).xs) ∧
    (∀ n,
      (ddimSampleAux C acp sched (some (mask0, orig0)) temperature 0 x0 k0
          n).x
        = (ddimSampleAux C acp sched none temperature 0 x0 k0 n).x ∧
      (ddimSampleAux C acp sched (some (mask0, orig0)) temperature 0 x0 k0
          n).xs
        = (ddimSampleAux C acp sched none temperature 0 x0 k0 n).xs) ∧
    (∀ n,
      (plmsSampleAux C acp sched (some (mask0, orig0)) qd temperature
          noiseDropout x0 k0 n).x
        = (plmsSampleAux C acp sched none qd temperature noiseDropout x0 k0
            n).x ∧
      (plmsSampleAux C acp sched (some (mask0, orig0)) qd temperature
          noiseDropout x0 k0 n).xs
        = (plmsSampleAux C acp sched none qd temperature noiseDropout x0 k0
            n).xs) ∧
    (∀ n,
      (plmsDecodeAux C acp sched tStart (some (mask0, orig0)) temperature n0
          x0 k0 n).x
        = (plmsDecodeAux C acp sched tStart none temperature n0 x0 k0 n).x ∧
      (plmsDecodeAux C acp sched tStart (some (mask0, orig0)) temperature n0
          x0 k0 n).xs
        = (plmsDecodeAux C acp sched tStart none temperature n0 x0 k0 n).xs) ∧
    (∀ n,
      (ddimDecodeAux C acp sched tStart (some (mask1, orig1)) temperature x0
          k0 n).knowns
        = (ddimDecodeAux C acp sched tStart (some (mask1, orig1)) temperature
            x0 k0 n).comps.map some) ∧
    (∀ n,
      (ddimSampleAux C acp sched (some (mask1, orig1)) temperature 0 x0 k0
          n).knowns
        = (ddimSampleAux C acp sched (some (mask1, orig1)) temperature 0 x0 k0
            n).comps.map some) ∧
    (∀ n,
      (plmsSampleAux C acp sched (some (mask1, orig1)) qd temperature
          noiseDropout x0 k0 n).knowns
        = (plmsSampleAux C acp sched (some (mask1, orig1)) qd temperature
            noiseDropout x0 k0 n).comps.map some) ∧
    (∀ n,
      (plmsDecodeAux C acp sched tStart (some (mask1, orig1)) temperature n0
          x0 k0 n).knowns
        = (plmsDecodeAux C acp sched tStart (some (mask1, orig1)) temperature
            n0 x0 k0 n).comps.map some) := by
  refine ⟨?_, ?_, ?_, ?_, ?_, ?_, ?_, ?_, ?_, ?_, ?_⟩
  · intro x ts i k
    exact ddimDecodeMaskComposite_zero_mask C acp mask0 orig0 x ts i k hm0
  · intro x ts k
    exact sampleMaskComposite_zero_mask C acp mask0 orig0 x ts k hm0
  · intro x ts i k
    exact plmsDecodeMaskComposite_zero_mask C acp mask0 orig0 x ts i n0 k hm0
  · intro n
    obtain ⟨hx, hxs, _⟩ := ddimDecodeAux_zero_mask C acp sched tStart
      temperature mask0 orig0 x0 k0 hm0 hs n
    exact ⟨hx, hxs⟩
  · intro n
    obtain ⟨hx, hxs, _⟩ := ddimSampleAux_zero_mask C acp sched temperature
      mask0 orig0 x0 k0 hm0 hs n
    exact ⟨hx, hxs⟩
  · intro n
    obtain ⟨hx, hxs, _, _⟩ := plmsSampleAux_zero_mask C acp sched qd
      temperature noiseDropout mask0 orig0 x0 k0 hm0 hs n
    exact ⟨hx, hxs⟩
  · intro n
    obtain ⟨hx, hxs, _, _⟩ := plmsDecodeAux_zero_mask C acp sched tStart
      temperature n0 mask0 orig0 x0 k0 hm0 n
    exact ⟨hx, hxs⟩
  · exact ddimDecodeAux_one_mask C acp sched tStart temperature mask1 orig1 x0
      k0 hm1
  · exact ddimSampleAux_one_mask C acp sched temperature 0 mask1 orig1 x0 k0
      hm1
  · exact plmsSampleAux_one_mask C acp sched qd temperature noiseDropout mask1
      orig1 x0 k0 hm1
  · exact plmsDecodeAux_one_mask C acp sched tStart temperature n0 mask1
      orig1 x0 k0 hm1

/-- C7, witness at the one-step demo schedule: zero-mask composite identity,
zero-mask trajectory agreement after one iteration for a DDIM decode and a
PLMS sample and a PLMS decode, and all-ones known-region agreement after one
iteration for a DDIM decode and a PLMS decode. -/
theorem c7_mask_boundary_cases_witness :
    (ddimDecodeMaskComposite demoCtx demoAcp (some (zeroT, demoOne)) demoOne 1
        0 0).x = demoOne ∧
    (ddimDecodeAux demoCtx demoAcp demoSched1 1 (some (zeroT, demoOne)) 1
        demoX0 0 1).x =
      (ddimDecodeAux demoCtx demoAcp demoSched1 1 none 1 demoX0 0 1).x ∧
    (plmsSampleAux demoCtx demoAcp demoSched1 (some (zeroT, demoOne)) false 1
        0 demoX0 0 1).x =
      (plmsSampleAux demoCtx demoAcp demoSched1 none false 1 0 demoX0 0 1).x ∧
    (plmsDecodeAux demoCtx demoAcp demoSched1 1 (some (zeroT, demoOne)) 1
        demoOne demoX0 0 1).x =
      (plmsDecodeAux demoCtx demoAcp demoSched1 1 none 1 demoOne demoX0 0
        1).x ∧
    (ddimDecodeAux demoCtx demoAcp demoSched1 1 (some (demoOne, demoOne)) 1
        demoX0 0 1).knowns =
      (ddimDecodeAux demoCtx demoAcp demoSched1 1 (some (demoOne, demoOne)) 1
        demoX0 0 1).comps.map some ∧
    (plmsDecodeAux demoCtx demoAcp demoSched1 1 (some (demoOne, demoOne)) 1
        demoOne demoX0 0 1).knowns =
      (plmsDecodeAux demoCtx demoAcp demoSched1 1 (some (demoOne, demoOne)) 1
        demoOne demoX0 0 1).comps.map some :=
  ⟨(c7_mask_boundary_cases demoCtx demoAcp demoSched1 1 false 1 0 demoOne
      zeroT demoOne demoOne demoOne demoX0 0 (fun _ => rfl) (fun _ => rfl)
      (buildDDIM_sigmas_zero demoSqrt 4 demoAcp 1)).1 demoOne 1 0 0,
    ((c7_mask_boundary_cases demoCtx demoAcp demoSched1 1 false 1 0 demoOne
        zeroT demoOne demoOne demoOne demoX0 0 (fun _ => rfl) (fun _ => rfl)
        (buildDDIM_sigmas_zero demoSqrt 4 demoAcp 1)).2.2.2.1 1).1,
    ((c7_mask_boundary_cases demoCtx demoAcp demoSched1 1 false 1 0 demoOne
        zeroT demoOne demoOne demoOne demoX0 0 (fun _ => rfl) (fun _ => rfl)
        (buildDDIM_sigmas_zero demoSqrt 4 demoAcp 1)).2.2.2.2.2.1 1).1,
    ((c7_mask_boundary_cases demoCtx demoAcp demoSched1 1 false 1 0 demoOne
        zeroT demoOne demoOne demoOne demoX0 0 (fun _ => rfl) (fun _ => rfl)
        (buildDDIM_sigmas_zero demoSqrt 4 demoAcp 1)).2.2.2.2.2.2.1 1).1,
    (c7_mask_boundary_cases demoCtx demoAcp demoSched1 1 false 1 0 demoOne
        zeroT demoOne demoOne demoOne demoX0 0 (fun _ => rfl) (fun _ => rfl)
        (buildDDIM_sigmas_zero demoSqrt 4 demoAcp 1)).2.2.2.2.2.2.2.1 1,
    (c7_mask_boundary_cases demoCtx demoAcp demoSched1 1 false 1 0 demoOne
        zeroT demoOne demoOne demoOne demoX0 0 (fun _ => rfl) (fun _ => rfl)
        (buildDDIM_sigmas_zero demoSqrt 4 demoAcp 1)).2.2.2.2.2.2.2.2.2.2 1⟩

end Imaginairy
